import Mathlib

/-!
# Verification of the lobster-chess coordination core

Shallow embedding of the stateful coordination logic of the lobster-chess
repository (Cloudflare-Worker style durable objects written in TypeScript):

* `GameDO`   (src/api/src/index.ts)   — per-game session: clocks, moves, resign
* `LobbyDO`  (src/api/src/index.ts)   — agent registry and matchmaking queue
* `ChallengesDO` (challenges-do.ts)   — direct-challenge ledger
* `RatingsDO`    (ratings-do.ts, ratings.ts) — Elo rating ledger

Conventions: JS `Record` objects become association lists in insertion order,
`undefined`/`null` become `Option`, JS numbers holding milliseconds become
`Nat` (clock balances, which may go negative, become `Int`), and each
Durable-Object `fetch` handler becomes a pure function from its stored state
and request data to the new stored state plus a response.  External
collaborators (the chess.js rules engine, `Math.random`, `crypto`, sibling
durable objects reached over `fetch`) enter as explicit function or value
parameters of the handler they are consumed by.
-/

/-- Game status, from the `GameStatus` union type in src/api/src/index.ts. -/
inductive GameStatus
  | active
  | checkmate
  | stalemate
  | draw
  | resigned
  | timeout
  | aborted
  deriving DecidableEq, Repr

/-- Side to move, the `'w' | 'b'` union in the TypeScript source. -/
inductive Color
  | w
  | b
  deriving DecidableEq, Repr

/-- The persisted `GameState` record of `GameDO` (src/api/src/index.ts).
Clock balances are `Int` because the lazy tick can drive them below zero. -/
structure GameState where
  gameId : String
  createdAtMs : Nat
  whiteAgentId : String
  blackAgentId : String
  whiteName : String
  blackName : String
  incrementMs : Int
  whiteMs : Int
  blackMs : Int
  turn : Color
  lastTickMs : Nat
  status : GameStatus
  result : Option String
  ratingReported : Bool
  pgn : String
  fen : String
  moveCount : Nat
  lastMove : Option String
  deriving DecidableEq, Repr

/-- `GameDO.tick` (src/api/src/index.ts): subtract the elapsed time from the
clock of the side on move, reset the tick anchor, and flag a timeout when a
clock reaches zero or below.  Exact translation of the source, including the
`Math.max(0, ...)` clamp on the elapsed time and the order of the two
timeout checks. -/
def tick (now : Nat) (st : GameState) : GameState :=
  if st.status ≠ GameStatus.active then st
  else
    let elapsed : Int := max 0 ((now : Int) - (st.lastTickMs : Int))
    let st := { st with lastTickMs := now }
    let st :=
      if st.turn = Color.w then { st with whiteMs := st.whiteMs - elapsed }
      else { st with blackMs := st.blackMs - elapsed }
    if st.whiteMs ≤ 0 then
      { st with status := GameStatus.timeout, result := some "0-1" }
    else if st.blackMs ≤ 0 then
      { st with status := GameStatus.timeout, result := some "1-0" }
    else st

/-- JS `String.prototype.toLowerCase` restricted to ASCII, which is all the
source compares (invite codes, agent display names, UCI moves). -/
def lowerChar (c : Char) : Char :=
  if 'A' ≤ c && c ≤ 'Z' then Char.ofNat (c.toNat + 32) else c

/-- ASCII model of JS `toLowerCase()`. -/
def toLowerStr (s : String) : String := String.mk (s.data.map lowerChar)

def isWsChar (c : Char) : Bool := c = ' ' || c = '\t' || c = '\n' || c = '\r'

/-- ASCII model of JS `String.prototype.trim()`. -/
def trimStr (s : String) : String :=
  String.mk (((s.data.dropWhile isWsChar).reverse.dropWhile isWsChar).reverse)

/-- A parsed UCI move, the return shape of `parseUci` in the source. -/
structure Uci where
  fromSq : String
  toSq : String
  promotion : Option Char
  deriving DecidableEq, Repr

def isFileChar (c : Char) : Bool := 'a' ≤ c && c ≤ 'h'

def isRankChar (c : Char) : Bool := '1' ≤ c && c ≤ '8'

def isPromoChar (c : Char) : Bool := c = 'q' || c = 'r' || c = 'b' || c = 'n'

/-- `parseUci` (src/api/src/index.ts): trim + lowercase, then require the
shape `[a-h][1-8][a-h][1-8][qrbn]?` and split into from / to / promotion. -/
def parseUci (move : String) : Option Uci :=
  let m := toLowerStr (trimStr move)
  match m.data with
  | [a, b, c, d] =>
      if isFileChar a && isRankChar b && isFileChar c && isRankChar d then
        some ⟨String.mk [a, b], String.mk [c, d], none⟩
      else none
  | [a, b, c, d, e] =>
      if isFileChar a && isRankChar b && isFileChar c && isRankChar d
          && isPromoChar e then
        some ⟨String.mk [a, b], String.mk [c, d], some e⟩
      else none
  | _ => none

/-- Verdict of the external chess.js rules engine for one `chess.move` call on
a given position: the data `GameDO` reads back from the `Chess` object after a
successful move (`fen()`, `pgn()`, `turn()`, `isCheckmate()`, `isStalemate()`,
`isDraw()`).  `none` models `chess.move` returning `null` (illegal move).
The engine is an out-of-scope collaborator, so it is a parameter. -/
structure EngineOutcome where
  fen : String
  pgn : String
  turn : Color
  isCheckmate : Bool
  isStalemate : Bool
  isDraw : Bool
  deriving DecidableEq, Repr

/-- Error taxonomy of the HTTP API (spec section 7 / `err(...)` calls). -/
inductive ApiError
  | invalidInvite
  | unknownToken
  | notParticipant
  | gameNotActive
  | notYourTurn
  | malformedMove
  | illegalMove
  | notFound
  | methodNotAllowed
  deriving DecidableEq, Repr

/-- HTTP status attached to each error by the source's `err(...)` calls. -/
def ApiError.http : ApiError → Nat
  | .invalidInvite => 401
  | .unknownToken => 401
  | .notParticipant => 403
  | .gameNotActive => 409
  | .notYourTurn => 409
  | .malformedMove => 400
  | .illegalMove => 400
  | .notFound => 404
  | .methodNotAllowed => 405

/-- Response of a `GameDO` request: success (the body carries the public
view, which is a projection of the state) or one of the error responses. -/
inductive GameResp
  | ok
  | err (e : ApiError)
  deriving DecidableEq, Repr

/-- Inputs of a POST to `GameDO.fetch`: the parsed body plus the results of
the two cross-component calls the handler makes (`validateInvite` and the
lobby `agentLookup`), the rules engine, whether the best-effort rating report
round-trip succeeds, and the current time. -/
structure PostArgs where
  now : Nat
  inviteOk : Bool
  lookupAgent : Option String
  action : Option String
  move : Option String
  engine : String → Uci → Option EngineOutcome
  reportOk : Bool

/-- Which side a resolved agentId plays, from the ternary in the source:
`agentId === st.whiteAgentId ? 'w' : agentId === st.blackAgentId ? 'b' : null`. -/
def colorOf (st : GameState) (agentId : String) : Option Color :=
  if agentId = st.whiteAgentId then some Color.w
  else if agentId = st.blackAgentId then some Color.b
  else none

/-- `maybeReportRating` in `GameDO.fetch`: fire the rating report once,
guarded by `ratingReported`; a failed round-trip (`reportOk = false`) is
swallowed and leaves the flag unset. -/
def maybeReportRating (reportOk : Bool) (st : GameState) : GameState :=
  if st.result ≠ none ∧ st.ratingReported = false then
    if reportOk then { st with ratingReported := true } else st
  else st

/-- The POST branch of `GameDO.fetch` applied to the already-ticked state:
returns the state passed to `saveState` (`none` on every rejection, which
returns without saving) together with the response. -/
def gamePostCore (a : PostArgs) (st : GameState) : Option GameState × GameResp :=
  if a.inviteOk = false then (none, .err .invalidInvite)
  else
    match a.lookupAgent with
    | none => (none, .err .unknownToken)
    | some agentId =>
      match colorOf st agentId with
      | none => (none, .err .notParticipant)
      | some color =>
        if st.status ≠ GameStatus.active then (none, .err .gameNotActive)
        else if st.turn ≠ color then (none, .err .notYourTurn)
        else if a.action = some "resign" then
          let st := { st with
            status := GameStatus.resigned,
            result := some (if color = Color.w then "0-1" else "1-0") }
          let st := maybeReportRating a.reportOk st
          (some st, .ok)
        else
          match parseUci (a.move.getD "") with
          | none => (none, .err .malformedMove)
          | some uci =>
            match a.engine st.fen uci with
            | none => (none, .err .illegalMove)
            | some oc =>
              let st :=
                if color = Color.w then { st with whiteMs := st.whiteMs + st.incrementMs }
                else { st with blackMs := st.blackMs + st.incrementMs }
              let st := { st with
                fen := oc.fen,
                pgn := oc.pgn,
                turn := oc.turn,
                moveCount := st.moveCount + 1,
                lastMove := some (uci.fromSq ++ uci.toSq ++
                  (match uci.promotion with | some p => String.mk [p] | none => "")) }
              let st :=
                if oc.isCheckmate then
                  maybeReportRating a.reportOk { st with
                    status := GameStatus.checkmate,
                    result := some (if st.turn = Color.w then "1-0" else "0-1") }
                else if oc.isStalemate || oc.isDraw then
                  maybeReportRating a.reportOk { st with
                    status := GameStatus.draw,
                    result := some "1/2-1/2" }
                else st
              let st := { st with lastTickMs := a.now }
              (some st, .ok)

/-- Body of the internal `/init` request to `GameDO`. -/
structure InitBody where
  gameId : String
  whiteAgentId : String
  blackAgentId : String
  whiteName : String
  blackName : String
  deriving DecidableEq, Repr

/-- The fresh state installed by the `/init` branch of `GameDO.fetch`:
both clocks at 180000 ms, increment 2000 ms, white to move, status active,
starting position obtained from a fresh `Chess` object (its `fen()`/`pgn()`
strings are taken as parameters of the embedding). -/
def initGame (b : InitBody) (now : Nat) (startFen startPgn : String) : GameState :=
  { gameId := b.gameId
    createdAtMs := now
    whiteAgentId := b.whiteAgentId
    blackAgentId := b.blackAgentId
    whiteName := b.whiteName
    blackName := b.blackName
    incrementMs := 2000
    whiteMs := 3 * 60 * 1000
    blackMs := 3 * 60 * 1000
    turn := Color.w
    lastTickMs := now
    status := GameStatus.active
    result := none
    ratingReported := false
    pgn := startPgn
    fen := startFen
    moveCount := 0
    lastMove := none }

/-- A request reaching `GameDO.fetch`. -/
inductive GameReq
  | init (b : InitBody) (now : Nat) (startFen startPgn : String)
  | get (now : Nat)
  | post (a : PostArgs)
  | other
  deriving Inhabited

/-- Whether a request takes the internal `/init` route. -/
def GameReq.isInit : GameReq → Bool
  | .init _ _ _ _ => true
  | _ => false

/-- `GameDO.fetch` at storage level: maps the stored state (`none` when the
DO was never initialised) and a request to the new stored state and the
response.  Mirrors the source: `/init` overwrites unconditionally; every
other route loads, ticks, then GET persists the ticked state while POST
persists only on a successful resign or move. -/
def gameFetch (storage : Option GameState) (req : GameReq) :
    Option GameState × GameResp :=
  match req with
  | .init b now startFen startPgn => (some (initGame b now startFen startPgn), .ok)
  | .get now =>
      match storage with
      | none => (storage, .err .notFound)
      | some st =>
          let st := tick now st
          (some st, .ok)
  | .post a =>
      match storage with
      | none => (storage, .err .notFound)
      | some st =>
          let st1 := tick a.now st
          match gamePostCore a st1 with
          | (some st2, r) => (some st2, r)
          | (none, r) => (some st, r)
  | .other =>
      match storage with
      | none => (storage, .err .notFound)
      | some _ => (storage, .err .methodNotAllowed)

/-! ## Helper lemmas about the GameDO handlers -/

/-- `tick` touches only the clocks, the tick anchor, the status and the
result; identity and naming fields are untouched. -/
theorem tick_preserves_ids (now : Nat) (st : GameState) :
    (tick now st).whiteAgentId = st.whiteAgentId ∧
    (tick now st).blackAgentId = st.blackAgentId ∧
    (tick now st).turn = st.turn := by
  unfold tick
  repeat' split <;> simp_all

/-- `tick` on a non-active state is the identity. -/
theorem tick_nonactive (now : Nat) (st : GameState)
    (h : st.status ≠ GameStatus.active) : tick now st = st := by
  unfold tick
  simp [h]

/-- `maybeReportRating` changes at most the `ratingReported` flag. -/
theorem maybeReport_fields (ok : Bool) (st : GameState) :
    (maybeReportRating ok st).status = st.status ∧
    (maybeReportRating ok st).result = st.result ∧
    (maybeReportRating ok st).whiteAgentId = st.whiteAgentId ∧
    (maybeReportRating ok st).blackAgentId = st.blackAgentId := by
  unfold maybeReportRating
  repeat' split <;> simp_all

set_option maxHeartbeats 1000000 in
/-- Every rejection in the POST branch returns without a state to save. -/
theorem gamePostCore_err_no_save (a : PostArgs) (st : GameState) (e : ApiError)
    (h : (gamePostCore a st).2 = GameResp.err e) : (gamePostCore a st).1 = none := by
  unfold gamePostCore at *
  repeat' split at h
  all_goals simp_all

/-- On a state that is not active, a POST with a valid invite and a token that
resolves to a participant is rejected as `GameNotActive`, with no state saved. -/
theorem gamePostCore_nonactive (a : PostArgs) (st : GameState) (aid : String)
    (c : Color) (hs : st.status ≠ GameStatus.active) (hi : a.inviteOk = true)
    (hl : a.lookupAgent = some aid) (hc : colorOf st aid = some c) :
    gamePostCore a st = (none, GameResp.err ApiError.gameNotActive) := by
  unfold gamePostCore
  simp [hi, hl, hc, hs]

/-- `colorOf` only reads the participant ids, which `tick` preserves. -/
theorem colorOf_tick (now : Nat) (st : GameState) (aid : String) :
    colorOf (tick now st) aid = colorOf st aid := by
  obtain ⟨hw, hb, -⟩ := tick_preserves_ids now st
  unfold colorOf
  rw [hw, hb]

/-! ## Claim C9 — rejected POSTs persist nothing -/

/-- C9: every rejected POST to an existing game (invalid invite, unknown
token, not a participant, game not active, not your turn, malformed move,
illegal move) leaves the persisted `GameState` exactly as it was: the lazy
tick's in-memory clock decrement — even a timeout transition it computes —
is discarded, because no `saveState` happens on a rejection path. -/
theorem claim_C9_reject_no_persist (st : GameState) (a : PostArgs) (e : ApiError)
    (h : (gameFetch (some st) (GameReq.post a)).2 = GameResp.err e) :
    (gameFetch (some st) (GameReq.post a)).1 = some st := by
  simp only [gameFetch] at h ⊢
  have h2 : (gamePostCore a (tick a.now st)).2 = GameResp.err e := by
    rcases hgp : gamePostCore a (tick a.now st) with ⟨os, r⟩
    rw [hgp] at h
    cases os <;> simpa using h
  have hns := gamePostCore_err_no_save a (tick a.now st) e h2
  rcases hgp : gamePostCore a (tick a.now st) with ⟨os, r⟩
  rw [hgp] at hns
  cases os with
  | none => rfl
  | some st2 => simp at hns

/-- Fixture: an active game in the position before white's mating move
1.e4 e5 2.Bc4 Nc6 3.Qh5 Nf6 4.Qxf7#, with both clocks positive and the tick
anchor equal to the request time. -/
def preMateState : GameState :=
  { gameId := "game_mate", createdAtMs := 1000, whiteAgentId := "agent_w",
    blackAgentId := "agent_b", whiteName := "Alice", blackName := "Bob",
    incrementMs := 2000, whiteMs := 100000, blackMs := 100000,
    turn := Color.w, lastTickMs := 5000, status := GameStatus.active,
    result := none, ratingReported := false, pgn := "1. e4 e5 2. Bc4 Nc6 3. Qh5 Nf6",
    fen := "r1bqkb1r/pppp1ppp/2n2n2/4p2Q/2B1P3/8/PPPP1PPP/RNB1K1NR w KQkq - 4 4",
    moveCount := 6, lastMove := some "g8f6" }

/-- The chess.js verdict at `preMateState.fen`: the move h5f7 (Qxf7#) is
legal, the resulting position has black to move, and `isCheckmate()` is
true (black, the side to move, is mated). -/
def mateEngine : String → Uci → Option EngineOutcome := fun fen uci =>
  if fen = "r1bqkb1r/pppp1ppp/2n2n2/4p2Q/2B1P3/8/PPPP1PPP/RNB1K1NR w KQkq - 4 4"
      ∧ uci = ⟨"h5", "f7", none⟩ then
    some { fen := "r1bqkb1r/pppp1Qpp/2n2n2/4p3/2B1P3/8/PPPP1PPP/RNB1K1NR b KQkq - 0 4",
           pgn := "1. e4 e5 2. Bc4 Nc6 3. Qh5 Nf6 4. Qxf7#",
           turn := Color.b, isCheckmate := true, isStalemate := false, isDraw := false }
  else none

/-- White submits the mating move with a valid invite and token. -/
def mateArgs : PostArgs :=
  { now := 5000, inviteOk := true, lookupAgent := some "agent_w",
    action := none, move := some "h5f7", engine := mateEngine, reportOk := true }

/-! ## Claim C1 — checkmate result is awarded to the wrong side -/

/-- C1: the claim (and the spec) say the result after a mating move favours
the side that just moved (`"1-0"` for a white mate).  The code instead sets
`st.result = st.turn === 'w' ? '1-0' : '0-1'` AFTER `st.turn = chess.turn()`,
and `chess.turn()` is the mated side, so a white mating move yields
`result = "0-1"` — the win is recorded for the mated side.  Here white plays
Qxf7# and the persisted state has `status = checkmate` but `result = "0-1"`. -/
theorem claim_C1_checkmate_result_inverted :
    preMateState.turn = Color.w ∧
    preMateState.status = GameStatus.active ∧
    (mateEngine preMateState.fen ⟨"h5", "f7", none⟩).map (fun oc => oc.isCheckmate)
      = some true ∧
    (gameFetch (some preMateState) (GameReq.post mateArgs)).2 = GameResp.ok ∧
    ((gameFetch (some preMateState) (GameReq.post mateArgs)).1.map
      (fun s => (s.status, s.result)))
      = some (GameStatus.checkmate, some "0-1") := by
  refine ⟨rfl, rfl, by decide, by decide, by decide⟩

/-! ## Claim C5 — lazy tick semantics -/

/-- C5: on an active session whose off-move clock is still positive (true of
every reachable active state), `tick` subtracts `elapsed = now - lastTickMs`
from the side on move only, sets `lastTickMs = now`, and if that side's clock
thereby reaches ≤ 0 the status becomes `timeout` with the result in favour of
the opponent; and a plain GET poll persists exactly the ticked state, so a
game can end in timeout with no move submitted. -/
theorem claim_C5_lazy_tick (now : Nat) (st : GameState)
    (hact : st.status = GameStatus.active)
    (hle : st.lastTickMs ≤ now)
    (hw : 0 < st.whiteMs) (hb : 0 < st.blackMs) :
    (tick now st).lastTickMs = now ∧
    (st.turn = Color.w →
      (tick now st).whiteMs = st.whiteMs - ((now : Int) - (st.lastTickMs : Int)) ∧
      (tick now st).blackMs = st.blackMs) ∧
    (st.turn = Color.b →
      (tick now st).blackMs = st.blackMs - ((now : Int) - (st.lastTickMs : Int)) ∧
      (tick now st).whiteMs = st.whiteMs) ∧
    (st.turn = Color.w → st.whiteMs - ((now : Int) - (st.lastTickMs : Int)) ≤ 0 →
      (tick now st).status = GameStatus.timeout ∧ (tick now st).result = some "0-1") ∧
    (st.turn = Color.b → st.blackMs - ((now : Int) - (st.lastTickMs : Int)) ≤ 0 →
      (tick now st).status = GameStatus.timeout ∧ (tick now st).result = some "1-0") ∧
    (st.turn = Color.w → 0 < st.whiteMs - ((now : Int) - (st.lastTickMs : Int)) →
      (tick now st).status = GameStatus.active) ∧
    (st.turn = Color.b → 0 < st.blackMs - ((now : Int) - (st.lastTickMs : Int)) →
      (tick now st).status = GameStatus.active) ∧
    gameFetch (some st) (GameReq.get now) = (some (tick now st), GameResp.ok) := by
  have hmax : max 0 ((now : Int) - (st.lastTickMs : Int))
      = (now : Int) - (st.lastTickMs : Int) := by
    apply max_eq_right; omega
  refine ⟨?_, fun ht => ⟨?_, ?_⟩, fun ht => ⟨?_, ?_⟩,
      fun ht hto => ⟨?_, ?_⟩, fun ht hto => ⟨?_, ?_⟩,
      fun ht hpos => ?_, fun ht hpos => ?_, ?_⟩
  case _ =>
    unfold tick
    simp only [hact, hmax]
    repeat' split
    all_goals simp_all
  case _ =>
    unfold tick
    simp only [hact, hmax, ht]
    repeat' split
    all_goals simp_all
    all_goals omega
  case _ =>
    unfold tick
    simp only [hact, hmax, ht]
    repeat' split
    all_goals simp_all
    all_goals omega
  case _ =>
    unfold tick
    simp only [hact, hmax, ht]
    repeat' split
    all_goals simp_all
    all_goals omega
  case _ =>
    unfold tick
    simp only [hact, hmax, ht]
    repeat' split
    all_goals simp_all
    all_goals omega
  case _ =>
    unfold tick
    simp only [hact, hmax, ht]
    repeat' split
    all_goals simp_all
    all_goals omega
  case _ =>
    unfold tick
    simp only [hact, hmax, ht]
    repeat' split
    all_goals simp_all
    all_goals omega
  case _ =>
    unfold tick
    simp only [hact, hmax, ht]
    repeat' split
    all_goals simp_all
    all_goals omega
  case _ =>
    unfold tick
    simp only [hact, hmax, ht]
    repeat' split
    all_goals simp_all
    all_goals omega
  case _ =>
    unfold tick
    simp only [hact, hmax, ht]
    repeat' split
    all_goals simp_all
    all_goals omega
  case _ =>
    unfold tick
    simp only [hact, hmax, ht]
    repeat' split
    all_goals simp_all
    all_goals omega
  case _ =>
    rfl


/-- Fixture for C5: an active game, black to move with 1000 ms left, polled
2000 ms after the last tick. -/
def c5State : GameState :=
  { gameId := "game_c5", createdAtMs := 500, whiteAgentId := "agent_w5",
    blackAgentId := "agent_b5", whiteName := "Eve", blackName := "Frank",
    incrementMs := 2000, whiteMs := 5000, blackMs := 1000,
    turn := Color.b, lastTickMs := 1000, status := GameStatus.active,
    result := none, ratingReported := false, pgn := "1. e4", fen := "fen-after-e4",
    moveCount := 1, lastMove := some "e2e4" }

/-- Witness for C5: polling `c5State` at t = 3000 times black out in favour
of white, purely through the GET round. -/
theorem claim_C5_witness :
    (tick 3000 c5State).status = GameStatus.timeout ∧
    (tick 3000 c5State).result = some "1-0" ∧
    gameFetch (some c5State) (GameReq.get 3000) = (some (tick 3000 c5State), GameResp.ok) := by
  have h := claim_C5_lazy_tick 3000 c5State (by decide) (by decide) (by decide) (by decide)
  exact ⟨(h.2.2.2.2.1 (by decide) (by decide)).1,
    (h.2.2.2.2.1 (by decide) (by decide)).2, h.2.2.2.2.2.2.2⟩

/-! ## Claim C6 — terminal status never reverts (amended to exclude init) -/

/-- `gamePostCore` on a non-active state never produces a state to save. -/
theorem gamePostCore_nonactive_no_save (a : PostArgs) (st : GameState)
    (hs : st.status ≠ GameStatus.active) : (gamePostCore a st).1 = none := by
  unfold gamePostCore
  repeat' split
  all_goals simp_all

/-- C6 (amended): once a session's status is terminal, `tick`, GET, POST
(move or resign) and the method-not-allowed route all leave the persisted
state, and in particular its status, unchanged — only the internal `/init`
route, which unconditionally installs a fresh active state, escapes this. -/
theorem claim_C6_terminal_never_reverts (st : GameState)
    (hs : st.status ≠ GameStatus.active) :
    (∀ now, tick now st = st) ∧
    (∀ req, req.isInit = false → (gameFetch (some st) req).1 = some st) := by
  refine ⟨fun now => tick_nonactive now st hs, fun req hreq => ?_⟩
  cases req with
  | init b n f p => simp [GameReq.isInit] at hreq
  | get now => simp only [gameFetch, tick_nonactive now st hs]
  | post a =>
      simp only [gameFetch]
      have hnone : (gamePostCore a (tick a.now st)).1 = none := by
        rw [tick_nonactive a.now st hs]
        exact gamePostCore_nonactive_no_save a st hs
      rcases hgp : gamePostCore a (tick a.now st) with ⟨os, r⟩
      rw [hgp] at hnone
      cases os with
      | none => rfl
      | some st2 => simp at hnone
  | other => rfl

/-- Fixture: a finished (resigned) session stored in a GameDO. -/
def c6Terminal : GameState :=
  { gameId := "game_c6", createdAtMs := 500, whiteAgentId := "agent_w6",
    blackAgentId := "agent_b6", whiteName := "Gus", blackName := "Hal",
    incrementMs := 2000, whiteMs := 150000, blackMs := 140000,
    turn := Color.b, lastTickMs := 7000, status := GameStatus.resigned,
    result := some "0-1", ratingReported := true, pgn := "1. e4", fen := "fen-x",
    moveCount := 1, lastMove := some "e2e4" }

/-- A fresh init body addressed to the same durable object. -/
def c6InitBody : InitBody :=
  { gameId := "game_c6", whiteAgentId := "agent_w7", blackAgentId := "agent_b7",
    whiteName := "Ivy", blackName := "Jo" }

/-- Standard chess starting position, as `new Chess().fen()` returns it. -/
def startFen : String := "rnbqkbnr/pppppppp/8/8/8/8/PPPPPPPP/RNBQKBNR w KQkq - 0 1"

/-- C6 counterexample: the internal `/init` step, listed by the claim among
the operations that never map a terminal status back to active, overwrites a
resigned session with a fresh `active` one. -/
theorem claim_C6_counterexample :
    c6Terminal.status = GameStatus.resigned ∧
    ((gameFetch (some c6Terminal) (GameReq.init c6InitBody 9000 startFen "")).1.map
      (fun s => s.status)) = some GameStatus.active := by
  exact ⟨rfl, rfl⟩

/-- Witness for the amended C6 at a concrete terminal state. -/
theorem claim_C6_witness :
    tick 9000 c6Terminal = c6Terminal ∧
    (gameFetch (some c6Terminal) (GameReq.get 9000)).1 = some c6Terminal :=
  ⟨(claim_C6_terminal_never_reverts c6Terminal (by decide)).1 9000,
   (claim_C6_terminal_never_reverts c6Terminal (by decide)).2 (GameReq.get 9000) rfl⟩

/-! ## Claim C2 — resign (corrected: only on the caller's own turn) -/

/-- Fixture for C2: an active game, white to move. -/
def c2State : GameState :=
  { gameId := "game_c2", createdAtMs := 500, whiteAgentId := "agent_w2",
    blackAgentId := "agent_b2", whiteName := "Kim", blackName := "Lee",
    incrementMs := 2000, whiteMs := 60000, blackMs := 60000,
    turn := Color.w, lastTickMs := 4000, status := GameStatus.active,
    result := none, ratingReported := false, pgn := "", fen := "start-fen",
    moveCount := 0, lastMove := none }

/-- Black (a participant of the active game, off move) tries to resign. -/
def c2OffTurnResign : PostArgs :=
  { now := 4000, inviteOk := true, lookupAgent := some "agent_b2",
    action := some "resign", move := none, engine := fun _ _ => none,
    reportOk := true }

/-- C2 counterexample: resign does NOT succeed regardless of whose turn it
is — the turn check precedes the resign branch, so a participant of an
active game who is not on move gets `NotYourTurn` (409) and no state
change, contradicting the claim that resign is rejected only for
non-participants or inactive games. -/
theorem claim_C2_counterexample :
    c2State.status = GameStatus.active ∧
    colorOf c2State "agent_b2" = some Color.b ∧
    gameFetch (some c2State) (GameReq.post c2OffTurnResign) =
      (some c2State, GameResp.err ApiError.notYourTurn) := by
  exact ⟨rfl, by decide, by decide⟩

/-- C2 (amended): for a participant whose turn it is, resign on an active
game succeeds irrespective of clocks or moves: the persisted status becomes
`resigned` with the result in favour of the non-resigning side, and any
subsequent POST (move or resign) by either participant is rejected as
`GameNotActive` with no state change. -/
theorem claim_C2_resign_amended (st : GameState) (a : PostArgs) (aid : String)
    (c : Color) (hi : a.inviteOk = true) (hl : a.lookupAgent = some aid)
    (ha : a.action = some "resign")
    (hact : (tick a.now st).status = GameStatus.active)
    (hc : colorOf st aid = some c) (hturn : st.turn = c) :
    ∃ st2, gameFetch (some st) (GameReq.post a) = (some st2, GameResp.ok) ∧
      st2.status = GameStatus.resigned ∧
      st2.result = some (if c = Color.w then "0-1" else "1-0") ∧
      st2.whiteAgentId = st.whiteAgentId ∧
      st2.blackAgentId = st.blackAgentId ∧
      ∀ (a2 : PostArgs) (aid2 : String) (c2 : Color),
        a2.inviteOk = true → a2.lookupAgent = some aid2 →
        colorOf st2 aid2 = some c2 →
        gameFetch (some st2) (GameReq.post a2) =
          (some st2, GameResp.err ApiError.gameNotActive) := by
  obtain ⟨hwid, hbid, htn⟩ := tick_preserves_ids a.now st
  have hc1 : colorOf (tick a.now st) aid = some c := by rw [colorOf_tick]; exact hc
  have hturn1 : (tick a.now st).turn = c := by rw [htn]; exact hturn
  have hcore : gamePostCore a (tick a.now st) =
      (some (maybeReportRating a.reportOk
        { tick a.now st with
          status := GameStatus.resigned,
          result := some (if c = Color.w then "0-1" else "1-0") }), GameResp.ok) := by
    unfold gamePostCore
    simp [hi, hl, hc1, hact, hturn1, ha]
  refine ⟨maybeReportRating a.reportOk
      { tick a.now st with
        status := GameStatus.resigned,
        result := some (if c = Color.w then "0-1" else "1-0") }, ?_, ?_, ?_, ?_, ?_, ?_⟩
  · simp only [gameFetch, hcore]
  · exact (maybeReport_fields _ _).1
  · exact (maybeReport_fields _ _).2.1
  · rw [(maybeReport_fields _ _).2.2.1]; exact hwid
  · rw [(maybeReport_fields _ _).2.2.2]; exact hbid
  · intro a2 aid2 c2 hi2 hl2 hc2
    have hs2 : (maybeReportRating a.reportOk
        { tick a.now st with
          status := GameStatus.resigned,
          result := some (if c = Color.w then "0-1" else "1-0") }).status
        ≠ GameStatus.active := by
      rw [(maybeReport_fields _ _).1]; simp
    simp only [gameFetch]
    rw [tick_nonactive a2.now _ hs2,
      gamePostCore_nonactive a2 _ aid2 c2 hs2 hi2 hl2 hc2]

/-- White (on move) resigns with a valid invite and token. -/
def c2OnTurnResign : PostArgs :=
  { now := 4000, inviteOk := true, lookupAgent := some "agent_w2",
    action := some "resign", move := none, engine := fun _ _ => none,
    reportOk := true }

/-- Witness for the amended C2: white resigns on white's turn; status becomes
`resigned`, result `"0-1"`, and later posts by either side bounce. -/
theorem claim_C2_witness :
    ∃ st2, gameFetch (some c2State) (GameReq.post c2OnTurnResign) = (some st2, GameResp.ok) ∧
      st2.status = GameStatus.resigned ∧
      st2.result = some (if Color.w = Color.w then "0-1" else "1-0") ∧
      st2.whiteAgentId = c2State.whiteAgentId ∧
      st2.blackAgentId = c2State.blackAgentId ∧
      ∀ (a2 : PostArgs) (aid2 : String) (c2 : Color),
        a2.inviteOk = true → a2.lookupAgent = some aid2 →
        colorOf st2 aid2 = some c2 →
        gameFetch (some st2) (GameReq.post a2) =
          (some st2, GameResp.err ApiError.gameNotActive) :=
  claim_C2_resign_amended c2State c2OnTurnResign "agent_w2" Color.w rfl rfl rfl
    (by decide) (by decide) rfl

/-- Fixture for the C9 witness: the game from `c5State`, but white posts a
well-formed move while black's clock has already run out; the in-memory tick
flips the state to timeout, the POST is rejected `GameNotActive`, and the
persisted state is still the original active one. -/
def c9Args : PostArgs :=
  { now := 3000, inviteOk := true, lookupAgent := some "agent_w5",
    action := none, move := some "e2e4", engine := fun _ _ => none,
    reportOk := true }

/-- Witness for C9 at a concrete rejected POST. -/
theorem claim_C9_witness :
    (gameFetch (some c5State) (GameReq.post c9Args)).1 = some c5State :=
  claim_C9_reject_no_persist c5State c9Args ApiError.gameNotActive (by decide)

/-! ## Association-list model of JS Record objects

JS object assignment obj[k] = v keeps the key's position when the key already
exists and appends otherwise; delete obj[k] removes the entry.  Lookup finds
the first (hence only) entry with the key. -/

def alistUpsert (k : String) (v : β) (l : List (String × β)) : List (String × β) :=
  if l.any (fun e => e.1 == k) then
    l.map (fun e => if e.1 == k then (k, v) else e)
  else l ++ [(k, v)]

def alistDel (k : String) (l : List (String × β)) : List (String × β) :=
  l.filter (fun e => e.1 != k)

theorem lookup_append_self (k : String) (v : β) (l : List (String × β))
    (h : l.any (fun e => e.1 == k) = false) :
    List.lookup k (l ++ [(k, v)]) = some v := by
  induction l with
  | nil => simp [List.lookup]
  | cons a t ih =>
      simp only [List.any_cons, Bool.or_eq_false_iff] at h
      simp only [List.cons_append, List.lookup]
      have hne : (k == a.1) = false := by
        cases hb : a.1 == k with
        | true => exact absurd hb (by simp [h.1])
        | false => simpa [BEq.comm] using hb
      rw [hne]
      exact ih h.2

theorem lookup_map_replace (k : String) (v : β) (l : List (String × β))
    (h : l.any (fun e => e.1 == k) = true) :
    List.lookup k (l.map (fun e => if e.1 == k then (k, v) else e)) = some v := by
  induction l with
  | nil => simp at h
  | cons a t ih =>
      simp only [List.any_cons, Bool.or_eq_true] at h
      simp only [List.map_cons]
      cases hb : a.1 == k with
      | true =>
          simp only [hb, if_true]
          simp [List.lookup]
      | false =>
          simp only [hb, if_false, List.lookup]
          have hne : (k == a.1) = false := by simpa [BEq.comm] using hb
          rw [hne]
          exact ih (by rcases h with h1 | h2; exact absurd h1 (by simp [hb]); exact h2)

/-- Writing a value and reading it back through the association list. -/
theorem alistUpsert_lookup (k : String) (v : β) (l : List (String × β)) :
    List.lookup k (alistUpsert k v l) = some v := by
  unfold alistUpsert
  cases ha : l.any (fun e => e.1 == k) with
  | true => rw [if_pos rfl]; exact lookup_map_replace k v l ha
  | false => rw [if_neg (by simp [ha])]; exact lookup_append_self k v l ha

/-- Lookup through an entrywise value map. -/
theorem lookup_map_values (k : String) (f : β → β) (l : List (String × β)) :
    List.lookup k (l.map (fun e => (e.1, f e.2))) = (List.lookup k l).map f := by
  induction l with
  | nil => simp [List.lookup]
  | cons a t ih =>
      simp only [List.map_cons, List.lookup]
      cases hb : k == a.1 with
      | true => simp
      | false => simpa [hb] using ih

/-! ## ChallengesDO (challenges-do.ts) -/

/-- Challenge status, modelling the union `'open' | 'accepted' | 'expired'`
(the first value is spelled `opn` because `open` is a Lean keyword). -/
inductive ChStatus
  | opn
  | accepted
  | expired
  deriving DecidableEq, Repr

/-- The `Challenge` record of challenges-do.ts; `creator`/`acceptedBy` are
(agentId, name) pairs. -/
structure Challenge where
  id : String
  createdAtMs : Nat
  expiresAtMs : Nat
  creatorAgentId : String
  creatorName : String
  status : ChStatus
  acceptedBy : Option (String × String)
  gameId : Option String
  deriving DecidableEq, Repr

/-- Persisted state of `ChallengesDO`: the id-keyed challenge map. -/
structure ChallengeState where
  challenges : List (String × Challenge)
  deriving DecidableEq, Repr

/-- The lazy sweep inside `ChallengesDO.prune`: any open challenge whose TTL
has elapsed flips to expired (in the in-memory state). -/
def flipExpired (t : Nat) (c : Challenge) : Challenge :=
  if c.status = ChStatus.opn ∧ c.expiresAtMs ≤ t then
    { c with status := ChStatus.expired }
  else c

/-- Stable insertion by ascending `createdAtMs`, modelling the JS
`keys.sort((a, b) => createdAtMs diff)` used by the hard cap. -/
def insertByCreated (e : String × Challenge) :
    List (String × Challenge) → List (String × Challenge)
  | [] => [e]
  | x :: xs =>
      if e.2.createdAtMs < x.2.createdAtMs then e :: x :: xs
      else x :: insertByCreated e xs

def sortByCreated (l : List (String × Challenge)) : List (String × Challenge) :=
  l.foldr insertByCreated []

/-- `ChallengesDO.prune`: flip timed-out open challenges to expired, then
hard-cap the set at 2000 entries by deleting the oldest (by creation time). -/
def chPrune (t : Nat) (st : ChallengeState) : ChallengeState :=
  let cs := st.challenges.map (fun e => (e.1, flipExpired t e.2))
  if 2000 < cs.length then
    let toDel := ((sortByCreated cs).take (cs.length - 2000)).map (fun e => e.1)
    ⟨cs.filter (fun e => !(toDel.contains e.1))⟩
  else ⟨cs⟩

/-- Responses of the `/api/challenge/accept` route: either the created
game id, or a rejection with its HTTP status, message, and the `status`
field the 409 body carries. -/
inductive ChAcceptResp
  | accepted (gameId : String)
  | rejected (http : Nat) (msg : String) (statusExtra : Option ChStatus)
  deriving DecidableEq, Repr

/-- The `/api/challenge/accept` branch of `ChallengesDO.fetch`, composed with
the `prune` call at the top of `fetch`.  `tPrune` and `tCheck` are the two
`nowMs()` readings (prune time and expiry-check time, with
`tPrune ≤ tCheck` in any real run); `lookup` is the lobby `agentLookup`
round-trip; `newGameId` the generated id.  Returns the PERSISTED state —
rejections other than the 410 return without saving, so the pruned
in-memory state is dropped there — plus the response.  The emitted game
init and lobby registration are not modelled here (they are side calls). -/
def challengeAccept (lookup : String → Option (String × String))
    (tPrune tCheck : Nat) (token cid : String) (newGameId : String)
    (st0 : ChallengeState) : ChallengeState × ChAcceptResp :=
  let st := chPrune tPrune st0
  if token = "" then (st0, .rejected 400 "Missing agentToken" none)
  else if cid = "" then (st0, .rejected 400 "Missing challengeId" none)
  else
    match List.lookup cid st.challenges with
    | none => (st0, .rejected 404 "Challenge not found" none)
    | some c =>
      if c.status ≠ ChStatus.opn then
        (st0, .rejected 409 "Challenge not open" (some c.status))
      else if c.expiresAtMs ≤ tCheck then
        (⟨alistUpsert cid { c with status := ChStatus.expired } st.challenges⟩,
         .rejected 410 "Challenge expired" none)
      else
        match lookup token with
        | none => (st0, .rejected 401 "Unknown agent token" none)
        | some (aid, aname) =>
          if aid = c.creatorAgentId then
            (st0, .rejected 400 "Cannot accept your own challenge" none)
          else
            (⟨alistUpsert cid
               { c with status := ChStatus.accepted,
                        acceptedBy := some (aid, aname),
                        gameId := some newGameId } st.challenges⟩,
             .accepted newGameId)

/-! ## Claim C3 — accepting an expired challenge (corrected) -/

/-- Fixture: one open challenge that expired at t = 1000. -/
def c3Challenge : Challenge :=
  { id := "chal_1", createdAtMs := 100, expiresAtMs := 1000,
    creatorAgentId := "agent_c", creatorName := "Casey",
    status := ChStatus.opn, acceptedBy := none, gameId := none }

def c3State : ChallengeState := ⟨[("chal_1", c3Challenge)]⟩

def c3Lookup : String → Option (String × String) := fun t =>
  if t = "token_d" then some ("agent_d", "Drew") else none

/-- C3 counterexample: accepting at t = 2000 ≥ expiresAtMs = 1000 is NOT
rejected with ChallengeExpired (410): the lazy sweep at the top of `fetch`
has already flipped the in-memory status to expired, so the `status !== 'open'`
check fires first and the response is ChallengeNotOpen (409); moreover that
rejection path returns without saving, so the persisted status is still open. -/
theorem claim_C3_counterexample :
    c3Challenge.status = ChStatus.opn ∧
    c3Challenge.expiresAtMs ≤ 2000 ∧
    challengeAccept c3Lookup 2000 2000 "token_d" "chal_1" "game_cx" c3State =
      (c3State, ChAcceptResp.rejected 409 "Challenge not open" (some ChStatus.expired)) ∧
    (List.lookup "chal_1"
        (challengeAccept c3Lookup 2000 2000 "token_d" "chal_1" "game_cx" c3State).1.challenges).map
      (fun c => c.status) = some ChStatus.opn := by
  exact ⟨rfl, by decide, by decide, by decide⟩

/-- C3 (amended): a challenge that is open in storage and whose TTL has
elapsed by the accept call is never accepted.  When the TTL had already
elapsed at the prune sweep (the single-instant case `expiresAtMs ≤ tPrune`,
which is every real request except a sub-millisecond race), the rejection is
ChallengeNotOpen (409) whose body reports status `expired`, and nothing is
persisted; only when the TTL elapses strictly between the sweep and the
handler's own expiry check does the handler answer ChallengeExpired (410),
and that path does persist the flip to `expired`. -/
theorem claim_C3_expired_accept
    (lookup : String → Option (String × String)) (tPrune tCheck : Nat)
    (token cid gid : String) (st : ChallengeState) (c : Challenge)
    (hlen : st.challenges.length ≤ 2000)
    (hfind : List.lookup cid st.challenges = some c)
    (hopen : c.status = ChStatus.opn)
    (htok : token ≠ "") (hcid : cid ≠ "")
    (hexp : c.expiresAtMs ≤ tCheck) :
    (∀ r, (challengeAccept lookup tPrune tCheck token cid gid st).2 ≠
        ChAcceptResp.accepted r) ∧
    (c.expiresAtMs ≤ tPrune →
      challengeAccept lookup tPrune tCheck token cid gid st =
        (st, ChAcceptResp.rejected 409 "Challenge not open" (some ChStatus.expired))) ∧
    (tPrune < c.expiresAtMs →
      (challengeAccept lookup tPrune tCheck token cid gid st).2 =
        ChAcceptResp.rejected 410 "Challenge expired" none ∧
      List.lookup cid
          (challengeAccept lookup tPrune tCheck token cid gid st).1.challenges =
        some { c with status := ChStatus.expired }) := by
  have hpr : chPrune tPrune st =
      ⟨st.challenges.map (fun e => (e.1, flipExpired tPrune e.2))⟩ := by
    unfold chPrune
    rw [if_neg]
    simp only [List.length_map]
    omega
  have hlk : List.lookup cid (chPrune tPrune st).challenges =
      some (flipExpired tPrune c) := by
    rw [hpr]
    rw [lookup_map_values, hfind]
    rfl
  by_cases hA : c.expiresAtMs ≤ tPrune
  · have hflip : flipExpired tPrune c = { c with status := ChStatus.expired } := by
      unfold flipExpired
      rw [if_pos ⟨hopen, hA⟩]
    have hout : challengeAccept lookup tPrune tCheck token cid gid st =
        (st, ChAcceptResp.rejected 409 "Challenge not open" (some ChStatus.expired)) := by
      unfold challengeAccept
      simp only [htok, if_neg, hcid, hlk, hflip]
      simp
    refine ⟨?_, fun _ => hout, fun hB => absurd hA (by omega)⟩
    intro r
    rw [hout]
    simp
  · have hB : tPrune < c.expiresAtMs := by omega
    have hflip : flipExpired tPrune c = c := by
      unfold flipExpired
      rw [if_neg]
      intro hcon
      exact hA hcon.2
    have hout : challengeAccept lookup tPrune tCheck token cid gid st =
        (⟨alistUpsert cid { c with status := ChStatus.expired }
            (chPrune tPrune st).challenges⟩,
         ChAcceptResp.rejected 410 "Challenge expired" none) := by
      unfold challengeAccept
      simp only [htok, if_neg, hcid, hlk, hflip]
      simp [hopen, hexp]
    refine ⟨?_, fun hA2 => absurd hA2 (by omega), fun _ => ?_⟩
    · intro r
      rw [hout]
      simp
    · rw [hout]
      exact ⟨rfl, alistUpsert_lookup cid _ _⟩

/-- Witness for the amended C3, exercising both the 409 path (expiry before
the sweep) and the 410 race path (expiry between sweep and check). -/
theorem claim_C3_witness :
    challengeAccept c3Lookup 2000 2000 "token_d" "chal_1" "game_cx" c3State =
      (c3State, ChAcceptResp.rejected 409 "Challenge not open" (some ChStatus.expired)) ∧
    ((challengeAccept c3Lookup 500 2000 "token_d" "chal_1" "game_cx" c3State).2 =
        ChAcceptResp.rejected 410 "Challenge expired" none ∧
      List.lookup "chal_1"
          (challengeAccept c3Lookup 500 2000 "token_d" "chal_1" "game_cx" c3State).1.challenges =
        some { c3Challenge with status := ChStatus.expired }) :=
  ⟨(claim_C3_expired_accept c3Lookup 2000 2000 "token_d" "chal_1" "game_cx" c3State
      c3Challenge (by decide) (by decide) rfl (by decide) (by decide) (by decide)).2.1
      (by decide),
   (claim_C3_expired_accept c3Lookup 500 2000 "token_d" "chal_1" "game_cx" c3State
      c3Challenge (by decide) (by decide) rfl (by decide) (by decide) (by decide)).2.2
      (by decide)⟩

/-! ## RatingsDO (ratings.ts, ratings-do.ts)

The stored numbers are JS floats; the ledger's bookkeeping (dedup, counters,
log, retention) is independent of the arithmetic, so the handler is
parameterised by the rating-update function over `ℚ`, while C10 analyses the
Elo formula itself over `ℝ`. -/

/-- The `RatingPlayer` record of ratings.ts. -/
structure RatingPlayer where
  agentId : String
  name : String
  rating : ℚ
  games : Nat
  wins : Nat
  draws : Nat
  losses : Nat
  lastGameAtMs : Option Nat
  deriving DecidableEq, Repr

/-- The `GameResult` history-log entry of ratings.ts. -/
structure GameResult where
  gameId : String
  endedAtMs : Nat
  whiteId : String
  whiteName : String
  blackId : String
  blackName : String
  result : String
  deriving DecidableEq, Repr

/-- `parseResult` (ratings.ts): trim, then map the three result strings to
the players' scores. -/
def parseResult (result : String) : Option (ℚ × ℚ) :=
  let r := trimStr result
  if r = "1-0" then some (1, 0)
  else if r = "0-1" then some (0, 1)
  else if r = "1/2-1/2" then some (1/2, 1/2)
  else none

/-- `defaultPlayer` (ratings-do.ts): fresh record at rating 1500. -/
def defaultPlayer (agentId name : String) : RatingPlayer :=
  { agentId := agentId, name := name, rating := 1500, games := 0,
    wins := 0, draws := 0, losses := 0, lastGameAtMs := none }

/-- `recordOutcome` (ratings-do.ts). -/
def recordOutcome (now : Nat) (p : RatingPlayer) (s : ℚ) : RatingPlayer :=
  let p := { p with games := p.games + 1 }
  let p :=
    if s = 1 then { p with wins := p.wins + 1 }
    else if s = 0 then { p with losses := p.losses + 1 }
    else { p with draws := p.draws + 1 }
  { p with lastGameAtMs := some now }

/-- The persisted `RatingsState` of ratings-do.ts; `applied` is the key set
of the `gameId -> true` dedup record. -/
structure RatingsState where
  playersAll : List (String × RatingPlayer)
  games : List GameResult
  applied : List String
  deriving DecidableEq, Repr

/-- Parsed body of the internal `/report` request (after the source's
`String(... || default)` coercions are applied to the raw JSON). -/
structure ReportBody where
  gameId : String
  endedAtMs : Option Nat
  whiteId : String
  whiteName : String
  blackId : String
  blackName : String
  result : String
  deriving DecidableEq, Repr

/-- Responses of the `/report` route. -/
inductive ReportResp
  | applied
  | duplicate
  | badResult
  | missingGameId
  | missingPlayerIds
  deriving DecidableEq, Repr

/-- Ascending insertion, modelling the default JS `Array.prototype.sort()`
(lexicographic) used by the applied-marker retention. -/
def insertStr (s : String) : List String → List String
  | [] => [s]
  | x :: xs => if s < x then s :: x :: xs else x :: insertStr s xs

def sortStrings (l : List String) : List String := l.foldr insertStr []

/-- The `/report` branch of `RatingsDO.fetch`: dedup guard, lazy player
creation at 1500, Elo update (the arithmetic step `elo rSelf rOther sSelf`
is the parameter), counter bookkeeping, history append, and the two
retention caps. Returns the persisted state and the response; every
rejection and the duplicate short-circuit return without saving. -/
def ratingsReport (elo : ℚ → ℚ → ℚ → ℚ) (now : Nat) (b : ReportBody)
    (st : RatingsState) : RatingsState × ReportResp :=
  match parseResult b.result with
  | none => (st, .badResult)
  | some (sW, sB) =>
    if b.gameId = "" then (st, .missingGameId)
    else if st.applied.contains b.gameId then (st, .duplicate)
    else
      let g : GameResult :=
        { gameId := b.gameId, endedAtMs := b.endedAtMs.getD now,
          whiteId := b.whiteId,
          whiteName := if b.whiteName = "" then "White" else b.whiteName,
          blackId := b.blackId,
          blackName := if b.blackName = "" then "Black" else b.blackName,
          result := b.result }
      if g.whiteId = "" ∨ g.blackId = "" then (st, .missingPlayerIds)
      else
        let pW0 := (List.lookup g.whiteId st.playersAll).getD
          (defaultPlayer g.whiteId g.whiteName)
        let pB0 := (List.lookup g.blackId st.playersAll).getD
          (defaultPlayer g.blackId g.blackName)
        let pW1 := { pW0 with name := g.whiteName }
        let pB1 := { pB0 with name := g.blackName }
        let newW := elo pW1.rating pB1.rating sW
        let newB := elo pB1.rating pW1.rating sB
        let pW2 := recordOutcome now { pW1 with rating := newW } sW
        let pB2 := recordOutcome now { pB1 with rating := newB } sB
        let players2 := alistUpsert g.blackId pB2 (alistUpsert g.whiteId pW2 st.playersAll)
        let games1 := st.games ++ [g]
        let applied1 := st.applied ++ [b.gameId]
        let games2 :=
          if 5000 < games1.length then games1.drop (games1.length - 5000) else games1
        let applied2 :=
          if 10000 < applied1.length then
            ((games2.map (fun x => x.gameId)) ++
              (sortStrings applied1).drop (applied1.length - 2000)).dedup
          else applied1
        ({ playersAll := players2, games := games2, applied := applied2 }, .applied)

/-- After a successful report, the reported gameId is in the retained
applied-marker set, even when both retention caps fire. -/
theorem mem_applied_after (gid : String) (gs : List GameResult) (g : GameResult)
    (ap : List String) (hg : g.gameId = gid) :
    gid ∈ (if 10000 < (ap ++ [gid]).length then
        (((if 5000 < (gs ++ [g]).length then
            (gs ++ [g]).drop ((gs ++ [g]).length - 5000)
          else gs ++ [g]).map (fun x => x.gameId)) ++
          (sortStrings (ap ++ [gid])).drop ((ap ++ [gid]).length - 2000)).dedup
      else ap ++ [gid]) := by
  split
  · rw [List.mem_dedup]
    apply List.mem_append_left
    have hmem : g ∈ (if 5000 < (gs ++ [g]).length then
        (gs ++ [g]).drop ((gs ++ [g]).length - 5000) else gs ++ [g]) := by
      split
      · rw [List.drop_append_of_le_length (by simp)]
        simp
      · simp
    rw [← hg]
    exact List.mem_map_of_mem _ hmem
  · simp

/-- A `/report` whose gameId is already in the applied set changes nothing. -/
theorem ratingsReport_dup (elo : ℚ → ℚ → ℚ → ℚ) (now : Nat) (b : ReportBody)
    (st : RatingsState) (h : st.applied.contains b.gameId = true) :
    (ratingsReport elo now b st).1 = st := by
  simp only [ratingsReport]
  repeat' split
  all_goals simp_all

/-- Every `/report` either leaves the state untouched (any rejection or the
duplicate guard, none of which depend on the clock) or ends with the gameId
recorded in the applied set. -/
theorem ratingsReport_cases (elo : ℚ → ℚ → ℚ → ℚ) (b : ReportBody)
    (st : RatingsState) :
    (∀ n, (ratingsReport elo n b st).1 = st) ∨
    (∀ n, (ratingsReport elo n b st).1.applied.contains b.gameId = true) := by
  rcases hpr : parseResult b.result with _ | ⟨sW, sB⟩
  · left; intro n; simp [ratingsReport, hpr]
  · by_cases hg : b.gameId = ""
    · left; intro n; simp [ratingsReport, hpr, hg]
    · by_cases hdup : st.applied.contains b.gameId = true
      · left; intro n
        have hdup2 : b.gameId ∈ st.applied := by
          simpa [List.contains, List.elem_iff] using hdup
        simp [ratingsReport, hpr, hg, hdup2]
      · by_cases hids : b.whiteId = "" ∨ b.blackId = ""
        · left; intro n
          simp only [ratingsReport, hpr]
          rw [if_neg hg]
          split
          · rfl
          · rfl
        · right; intro n
          simp only [ratingsReport, hpr, hg, hdup, hids,
            if_false, if_true, Bool.false_eq_true]
          have hmem := mem_applied_after b.gameId st.games
            { gameId := b.gameId, endedAtMs := b.endedAtMs.getD n,
              whiteId := b.whiteId,
              whiteName := if b.whiteName = "" then "White" else b.whiteName,
              blackId := b.blackId,
              blackName := if b.blackName = "" then "Black" else b.blackName,
              result := b.result } st.applied rfl
          simp only [List.contains, List.elem_iff]
          simpa using hmem

/-! ## Claim C4 — rating report idempotence -/

/-- C4: reporting the same gameId a second time is a no-op for the whole
rating ledger — ratings, games/wins/draws/losses counters, the history log
and the applied set after the second call all equal their values after the
first (the two calls may observe different clocks).  Holds for every
rating-update function, in particular the Elo step the DO uses. -/
theorem claim_C4_report_idempotent (elo : ℚ → ℚ → ℚ → ℚ) (now1 now2 : Nat)
    (b : ReportBody) (st : RatingsState) :
    (ratingsReport elo now2 b (ratingsReport elo now1 b st).1).1 =
      (ratingsReport elo now1 b st).1 := by
  rcases ratingsReport_cases elo b st with h | h
  · rw [h now1]
    exact h now2
  · exact ratingsReport_dup elo now2 b _ (h now1)

/-! ## Claim C10 — the Elo update is zero-sum in exact real arithmetic -/

/-- `expectedScore` (ratings.ts) read in exact real arithmetic:
`1 / (1 + 10 ** ((rB - rA) / 400))`. -/
noncomputable def expectedScore (rA rB : ℝ) : ℝ :=
  1 / (1 + (10 : ℝ) ^ ((rB - rA) / 400))

/-- `eloUpdate` (ratings.ts): `rA + k * (sA - expectedScore rA rB)`. -/
noncomputable def eloUpdate (rA rB sA : ℝ) (k : ℝ := 32) : ℝ :=
  rA + k * (sA - expectedScore rA rB)

/-- The two expected scores of one game sum to 1. -/
theorem expectedScore_add_symm (rA rB : ℝ) :
    expectedScore rA rB + expectedScore rB rA = 1 := by
  unfold expectedScore
  have hneg : (rA - rB) / 400 = -((rB - rA) / 400) := by ring
  rw [hneg, Real.rpow_neg (by norm_num)]
  have hpos : (0 : ℝ) < (10 : ℝ) ^ ((rB - rA) / 400) :=
    Real.rpow_pos_of_pos (by norm_num) _
  have h1 : (1 : ℝ) + (10 : ℝ) ^ ((rB - rA) / 400) ≠ 0 := by positivity
  have h2 : (10 : ℝ) ^ ((rB - rA) / 400) ≠ 0 := ne_of_gt hpos
  field_simp
  ring

/-- C10: for every result accepted by `parseResult` the scores sum to 1, the
expected scores sum to 1, and hence the two `eloUpdate` calls the RatingsDO
makes with K = 32 preserve the rating sum exactly. -/
theorem claim_C10_elo_zero_sum (rW rB : ℝ) (r : String) (p : ℚ × ℚ)
    (hp : parseResult r = some p) :
    expectedScore rW rB + expectedScore rB rW = 1 ∧
    (p.1 : ℝ) + (p.2 : ℝ) = 1 ∧
    eloUpdate rW rB (p.1 : ℝ) 32 + eloUpdate rB rW (p.2 : ℝ) 32 = rW + rB := by
  have hsum : (p.1 : ℝ) + (p.2 : ℝ) = 1 := by
    unfold parseResult at hp
    by_cases h1 : trimStr r = "1-0"
    · rw [if_pos h1] at hp
      simp at hp
      subst hp
      norm_num
    · by_cases h2 : trimStr r = "0-1"
      · rw [if_neg h1, if_pos h2] at hp
        simp at hp
        subst hp
        norm_num
      · by_cases h3 : trimStr r = "1/2-1/2"
        · rw [if_neg h1, if_neg h2, if_pos h3] at hp
          simp at hp
          subst hp
          push_cast
          norm_num
        · rw [if_neg h1, if_neg h2, if_neg h3] at hp
          cases hp
  refine ⟨expectedScore_add_symm rW rB, hsum, ?_⟩
  unfold eloUpdate
  linear_combination (32 : ℝ) * hsum - (32 : ℝ) * expectedScore_add_symm rW rB

/-- Witness for C10 at the concrete result "1-0" and ratings 1500 / 1400. -/
theorem claim_C10_witness :
    expectedScore 1500 1400 + expectedScore 1400 1500 = 1 ∧
    (((1 : ℚ) : ℝ) + ((0 : ℚ) : ℝ) = 1) ∧
    eloUpdate 1500 1400 ((1 : ℚ) : ℝ) 32 + eloUpdate 1400 1500 ((0 : ℚ) : ℝ) 32
      = 1500 + 1400 := by
  have h := claim_C10_elo_zero_sum 1500 1400 "1-0" (1, 0) (by decide)
  exact ⟨h.1, h.2.1, h.2.2⟩

/-! ## InviteValidator (src/api/src/index.ts) -/

/-- RFC 4648 base32 alphabet, from `base32RFC4648` in the source. -/
def b32alphabet : List Char := "ABCDEFGHIJKLMNOPQRSTUVWXYZ234567".data

/-- The inner `while (bits >= 5)` loop of `base32RFC4648`: emit
`alphabet[(value >>> (bits - 5)) & 31]` while at least five bits are
buffered.  Structural on `bits` (each pass consumes five bits). -/
def b32emit (value : Nat) : Nat → List Char → List Char × Nat
  | b + 5, acc => b32emit value b (acc ++ [b32alphabet.getD (value / 2 ^ b % 32) 'A'])
  | bits, acc => (acc, bits)

/-- `base32RFC4648` (src/api/src/index.ts) over a byte list: accumulate
8 bits per byte, emit 5-bit groups, and flush `(value << (5 - bits)) & 31`
when bits remain. -/
def base32RFC4648 (bytes : List Nat) : String :=
  let s := bytes.foldl (fun s b =>
    let value := s.2.1 * 256 + b
    let r := b32emit value (s.2.2 + 8) s.1
    (r.1, value, r.2)) (([] : List Char), 0, 0)
  let acc :=
    if 0 < s.2.2 then s.1 ++ [b32alphabet.getD (s.2.1 * 2 ^ (5 - s.2.2) % 32) 'A']
    else s.1
  String.mk acc

/-- `dailyInviteCode`: `base32(HMAC-SHA256(secret, day)).slice(0, 10)`
lower-cased.  HMAC-SHA256 is `crypto.subtle`, an external platform
primitive, so it enters as the parameter `hmac`; the UTC date string
`yyyyMmDdUTC` is represented by its day index (see `dayOfMs`). -/
def dailyInviteCode (hmac : String → Nat → List Nat) (secret : String)
    (day : Nat) : String :=
  toLowerStr (String.mk ((base32RFC4648 (hmac secret day)).data.take 10))

/-- Milliseconds per UTC day. -/
def msPerDay : Nat := 86400000

/-- `yyyyMmDdUTC` modelled by the UTC day index: two timestamps produce the
same `YYYY-MM-DD` string exactly when they have the same `ms / 86400000`
(Unix time has no leap seconds), so the date string is represented by this
index throughout. -/
def dayOfMs (ms : Nat) : Nat := ms / msPerDay

/-- Configuration read by `validateInvite`: `INVITE_SECRET` and the optional
static evergreen code `INVITE_STATIC`. -/
structure InviteEnv where
  inviteSecret : String
  inviteStatic : String
  deriving DecidableEq, Repr

/-- `validateInvite` (src/api/src/index.ts): fail closed without a code
(JS `!inviteCode` is also true for the empty string); otherwise accept the
trimmed lower-cased code when it matches the non-empty static code, today's
derived code, or yesterday's (`Date.now() - 24h`). -/
def validateInvite (hmac : String → Nat → List Nat) (env : InviteEnv)
    (now : Nat) (inviteCode : Option String) : Bool :=
  match inviteCode with
  | none => false
  | some ic =>
    if ic = "" then false
    else
      let code := toLowerStr (trimStr ic)
      let staticCode := toLowerStr (trimStr env.inviteStatic)
      if staticCode ≠ "" ∧ code = staticCode then true
      else if code = dailyInviteCode hmac env.inviteSecret (dayOfMs now) then true
      else decide (code =
        dailyInviteCode hmac env.inviteSecret (dayOfMs (now - msPerDay)))

/-- Stepping one day back in time steps the day index back by one. -/
theorem dayOfMs_sub_day (n : Nat) (h : msPerDay ≤ n) :
    dayOfMs (n - msPerDay) = dayOfMs n - 1 := by
  unfold dayOfMs msPerDay at *
  omega

/-! ## Claim C8 — invite validation -/

/-- C8: `validateInvite` (1) fails closed when no code (or an empty code) is
supplied; (2) accepts exactly the codes whose trimmed lower-cased form equals
the configured non-empty static code, the derived code for today, or the
derived code for `now - 24h`; (3) hence a (normalised) daily code for day D
validates at any instant of day D or day D+1; and (4) once two full days
have elapsed it is rejected, provided it collides neither with the static
code nor with the currently valid derived codes (true of the truncated-HMAC
codes in practice). -/
theorem claim_C8_invite_validation (hmac : String → Nat → List Nat)
    (env : InviteEnv) :
    (∀ now, validateInvite hmac env now none = false ∧
      validateInvite hmac env now (some "") = false) ∧
    (∀ now ic, ic ≠ "" →
      (validateInvite hmac env now (some ic) = true ↔
        (toLowerStr (trimStr env.inviteStatic) ≠ "" ∧
          toLowerStr (trimStr ic) = toLowerStr (trimStr env.inviteStatic)) ∨
        toLowerStr (trimStr ic) = dailyInviteCode hmac env.inviteSecret (dayOfMs now) ∨
        toLowerStr (trimStr ic) =
          dailyInviteCode hmac env.inviteSecret (dayOfMs (now - msPerDay)))) ∧
    (∀ D now, dailyInviteCode hmac env.inviteSecret D ≠ "" →
      toLowerStr (trimStr (dailyInviteCode hmac env.inviteSecret D)) =
        dailyInviteCode hmac env.inviteSecret D →
      (dayOfMs now = D ∨ dayOfMs now = D + 1) →
      validateInvite hmac env now
        (some (dailyInviteCode hmac env.inviteSecret D)) = true) ∧
    (∀ D now,
      toLowerStr (trimStr (dailyInviteCode hmac env.inviteSecret D)) =
        dailyInviteCode hmac env.inviteSecret D →
      D + 2 ≤ dayOfMs now →
      ¬(toLowerStr (trimStr env.inviteStatic) ≠ "" ∧
        dailyInviteCode hmac env.inviteSecret D =
          toLowerStr (trimStr env.inviteStatic)) →
      dailyInviteCode hmac env.inviteSecret D ≠
        dailyInviteCode hmac env.inviteSecret (dayOfMs now) →
      dailyInviteCode hmac env.inviteSecret D ≠
        dailyInviteCode hmac env.inviteSecret (dayOfMs now - 1) →
      validateInvite hmac env now
        (some (dailyInviteCode hmac env.inviteSecret D)) = false) := by
  refine ⟨fun now => ⟨rfl, by simp [validateInvite]⟩, ?_, ?_, ?_⟩
  · intro now ic hic
    simp only [validateInvite]
    rw [if_neg hic]
    by_cases hs : toLowerStr (trimStr env.inviteStatic) ≠ "" ∧
        toLowerStr (trimStr ic) = toLowerStr (trimStr env.inviteStatic)
    · simp [hs]
    · rw [if_neg hs]
      by_cases ht : toLowerStr (trimStr ic) =
          dailyInviteCode hmac env.inviteSecret (dayOfMs now)
      · simp [ht, hs]
      · rw [if_neg ht]
        simp [ht, hs]
  · intro D now h0 hnorm hday
    simp only [validateInvite]
    rw [if_neg h0]
    by_cases hs : toLowerStr (trimStr env.inviteStatic) ≠ "" ∧
        toLowerStr (trimStr (dailyInviteCode hmac env.inviteSecret D)) =
          toLowerStr (trimStr env.inviteStatic)
    · simp [hs]
    · rw [if_neg hs, hnorm]
      rcases hday with hD | hD1
      · rw [hD]
        simp
      · have hge : msPerDay ≤ now := by
          simp only [dayOfMs, msPerDay] at hD1 ⊢
          omega
        have hyest : dayOfMs (now - msPerDay) = D := by
          rw [dayOfMs_sub_day now hge, hD1]
          omega
        by_cases ht : dailyInviteCode hmac env.inviteSecret D =
            dailyInviteCode hmac env.inviteSecret (dayOfMs now)
        · simp [ht]
        · rw [if_neg ht, hyest]
          simp
  · intro D now hnorm hdays hstat htoday hyest
    by_cases hemp : dailyInviteCode hmac env.inviteSecret D = ""
    · simp [validateInvite, hemp]
    · simp only [validateInvite]
      rw [if_neg hemp, hnorm, if_neg hstat, if_neg htoday]
      have hge : msPerDay ≤ now := by
        simp only [dayOfMs, msPerDay] at hdays ⊢
        omega
      rw [dayOfMs_sub_day now hge]
      simpa using hyest

/-- A stand-in HMAC for the witness: the digest is the day index itself. -/
def hmacW : String → Nat → List Nat := fun _ d => [d]

def envW : InviteEnv := ⟨"secret", ""⟩

/-- Witness for C8: with a concrete digest function, the day-5 code
(`"au"`) is rejected without a code, accepted throughout day 6, and
rejected on day 7. -/
theorem claim_C8_witness :
    validateInvite hmacW envW (5 * msPerDay) none = false ∧
    validateInvite hmacW envW (6 * msPerDay)
      (some (dailyInviteCode hmacW envW.inviteSecret 5)) = true ∧
    validateInvite hmacW envW (7 * msPerDay + 123)
      (some (dailyInviteCode hmacW envW.inviteSecret 5)) = false :=
  ⟨((claim_C8_invite_validation hmacW envW).1 (5 * msPerDay)).1,
   (claim_C8_invite_validation hmacW envW).2.2.1 5 (6 * msPerDay)
     (by decide) (by decide) (by decide),
   (claim_C8_invite_validation hmacW envW).2.2.2 5 (7 * msPerDay + 123)
     (by decide) (by decide) (by decide) (by decide) (by decide)⟩

/-! ## LobbyDO (src/api/src/index.ts): registry and matchmaking queue -/

/-- `agents` map values: `token -> {agentId, name, token, lastSeenMs}`. -/
structure AgentRec where
  agentId : String
  name : String
  token : String
  lastSeenMs : Nat
  deriving DecidableEq, Repr

/-- `agentById` map values: `{agentId, name, lastSeenMs?}`. -/
structure AgentInfo where
  agentId : String
  name : String
  lastSeenMs : Option Nat
  deriving DecidableEq, Repr

/-- `activeGameMeta` values (`ActiveGameMeta`); the agent-id fields are
optional because the status-path pairing writes the meta without them. -/
structure LobbyMeta where
  gameId : String
  createdAtMs : Nat
  whiteName : String
  blackName : String
  whiteAgentId : Option String
  blackAgentId : Option String
  status : GameStatus
  moveCount : Nat
  deriving DecidableEq, Repr

/-- The persisted `LobbyState`. -/
structure LobbyState where
  agents : List (String × AgentRec)
  agentById : List (String × AgentInfo)
  waiting : List String
  waitingSinceMs : List (String × Nat)
  activeGames : List (String × String)
  activeGameMeta : List (String × LobbyMeta)
  deriving DecidableEq, Repr

def emptyLobby : LobbyState := ⟨[], [], [], [], [], []⟩

/-- Case/trim-insensitive display-name normalisation, as the source's
`String(name || '').trim().toLowerCase()`. -/
def normName (s : String) : String := toLowerStr (trimStr s)

/-- Responses of the lobby routes (only the tags the claims need). -/
inductive LobbyResp
  | okResp
  | errBad
  | errInvite
  | errTc
  | errToken
  | matchedResp (gameId : String)
  | waitingResp
  | idleResp
  deriving DecidableEq, Repr

/-- Body of the internal `/registerAgent` route. -/
structure RegisterArgs where
  agentId : String
  name : String
  token : String
  now : Nat
  deriving DecidableEq, Repr

/-- The `/registerAgent` branch of the patched `LobbyDO.fetch`. -/
def registerAgent (a : RegisterArgs) (st : LobbyState) : LobbyState × LobbyResp :=
  let name := if trimStr a.name = "" then "AnonymousAgent" else trimStr a.name
  if a.agentId = "" ∨ a.token = "" then (st, .errBad)
  else
    ({ st with
        agents := alistUpsert a.token ⟨a.agentId, name, a.token, a.now⟩ st.agents,
        agentById := alistUpsert a.agentId ⟨a.agentId, name, some a.now⟩ st.agentById },
     .okResp)

/-- Inputs of one `POST /api/queue/join`: body fields plus the environment
responses the handler consumes (invite validation, the GameDO status fetch
for a recorded active game, the `Math.random` coin flip, the generated id). -/
structure JoinArgs where
  inviteOk : Bool
  token : String
  tc : String
  now : Nat
  gstat : String → Option GameStatus
  whiteFirst : Bool
  newGameId : String

/-- The waiting queue after the staleness prune inside join
(`waitingSinceMs[aid] || 0 >= now - 120000`, in real arithmetic). -/
def joinFiltered (now : Nat) (st : LobbyState) : List String :=
  st.waiting.filter (fun aid =>
    ((List.lookup aid st.waitingSinceMs).getD 0 : Int) ≥ (now : Int) - 120000)

/-- First index to try in a cropped scan, not used outside `pickPartnerIdx`:
the source scans `waiting` for the earliest entry that is nonempty, is not
the joiner, resolves in `agentById`, and has a different normalised display
name; it falls back to index 0. -/
def pickPartnerIdx (byId : List (String × AgentInfo)) (rec : AgentRec)
    (waiting : List String) : Nat :=
  match waiting.findIdx? (fun cid =>
      (cid != "") && (cid != rec.agentId) &&
      (match List.lookup cid byId with
       | none => false
       | some cand => normName cand.name != normName rec.name)) with
  | some i => i
  | none => 0

/-- The tail of `queue/join` after the token resolution and the
active-game shortcut: prune, idempotent re-join, partner selection and
pairing, or enqueue.  Returns (new state, response, emitted GameDO init). -/
def joinCore (a : JoinArgs) (rec : AgentRec) (st1 : LobbyState) :
    LobbyState × LobbyResp × Option InitBody :=
  let st2 := { st1 with waiting := joinFiltered a.now st1 }
  if rec.agentId ∈ st2.waiting then (st2, .waitingResp, none)
  else if st2.waiting.isEmpty then
    ({ st2 with
        waiting := st2.waiting ++ [rec.agentId],
        waitingSinceMs := alistUpsert rec.agentId a.now st2.waitingSinceMs },
     .waitingResp, none)
  else
    let idx := pickPartnerIdx st2.agentById rec st2.waiting
    let otherId := st2.waiting.getD idx ""
    let st3 := { st2 with
        waiting := st2.waiting.eraseIdx idx,
        waitingSinceMs := alistDel otherId st2.waitingSinceMs }
    match List.lookup otherId st3.agentById with
    | none =>
        ({ st3 with
        waiting := st3.waiting ++ [rec.agentId],
            waitingSinceMs := alistUpsert rec.agentId a.now st3.waitingSinceMs },
         .waitingResp, none)
    | some otherRec =>
        let white := if a.whiteFirst then (rec.agentId, rec.name)
          else (otherRec.agentId, otherRec.name)
        let black := if a.whiteFirst then (otherRec.agentId, otherRec.name)
          else (rec.agentId, rec.name)
        ({ st3 with
            activeGames := alistUpsert black.1 a.newGameId
              (alistUpsert white.1 a.newGameId st3.activeGames),
            activeGameMeta := alistUpsert a.newGameId
              { gameId := a.newGameId, createdAtMs := a.now,
                whiteName := white.2, blackName := black.2,
                whiteAgentId := some white.1, blackAgentId := some black.1,
                status := GameStatus.active, moveCount := 0 } st3.activeGameMeta },
         .matchedResp a.newGameId,
         some ⟨a.newGameId, white.1, black.1, white.2, black.2⟩)

/-- `POST /api/queue/join` (src/api/src/index.ts): invite gate, time-control
gate, token resolution with a lastSeen touch, the recorded-active-game
shortcut (clearing a stale mapping), then `joinCore`. -/
def joinStep (a : JoinArgs) (st0 : LobbyState) :
    LobbyState × LobbyResp × Option InitBody :=
  if a.inviteOk = false then (st0, .errInvite, none)
  else if a.tc ≠ "3+2" then (st0, .errTc, none)
  else
    match List.lookup a.token st0.agents with
    | none => (st0, .errToken, none)
    | some rec =>
      let st1 := { st0 with
        agents := alistUpsert a.token { rec with lastSeenMs := a.now } st0.agents }
      match List.lookup rec.agentId st1.activeGames with
      | some existing =>
          if existing = "" then joinCore a rec st1
          else if a.gstat existing = some GameStatus.active then
            (st1, .matchedResp existing, none)
          else
            joinCore a rec { st1 with activeGames := alistDel rec.agentId st1.activeGames }
      | none => joinCore a rec st1

/-- Inputs of one `GET /api/queue/status`. -/
structure StatusArgs where
  token : String
  now : Nat
  gstat : String → Option GameStatus
  whiteFirst : Bool
  newGameId : String

/-- The same-name-avoidance scan of the status path: the first index `i ≥ 2`
whose entry resolves and has a nonempty normalised name different from `an`. -/
def findSwap (waiting : List String) (byId : List (String × AgentInfo))
    (an : String) : Option (Nat × AgentInfo) :=
  ((List.range waiting.length).drop 2).findSome? (fun i =>
    match List.lookup (waiting.getD i "") byId with
    | none => none
    | some cr =>
      let cn := normName cr.name
      if cn ≠ "" ∧ cn ≠ an then some (i, cr) else none)

/-- The opportunistic-pairing block at the top of the status handler: when
at least two distinct agents wait, pair the two earliest (after the
same-name swap, whose in-place mutation of the shared `br` object also
rewrites `agentById[b]`), or drop entries that no longer resolve. -/
def statusPairing (a : StatusArgs) (st0 : LobbyState) :
    LobbyState × Option InitBody :=
  if 2 ≤ st0.waiting.length then
    let qa := st0.waiting.getD 0 ""
    let qb := st0.waiting.getD 1 ""
    if qa ≠ "" ∧ qb ≠ "" ∧ qa ≠ qb then
      match List.lookup qa st0.agentById, List.lookup qb st0.agentById with
      | some ar, some br =>
        let an := normName ar.name
        let bn := normName br.name
        let swapped :=
          if an ≠ "" ∧ an = bn ∧ 2 < st0.waiting.length then
            match findSwap st0.waiting st0.agentById an with
            | some (i, cr) =>
              let cid := st0.waiting.getD i ""
              let brNew := { br with agentId := cr.agentId, name := cr.name }
              ({ st0 with
                  waiting := (st0.waiting.set 1 cid).set i qb,
                  agentById := alistUpsert qb brNew st0.agentById },
               brNew)
            | none => (st0, br)
          else (st0, br)
        let st1 := swapped.1
        let brF := swapped.2
        let st2 := { st1 with
            waiting := st1.waiting.drop 2,
            waitingSinceMs := alistDel qb (alistDel qa st1.waitingSinceMs) }
        let white := if a.whiteFirst then ar else brF
        let black := if a.whiteFirst then brF else ar
        ({ st2 with
            activeGames := alistUpsert black.agentId a.newGameId
              (alistUpsert white.agentId a.newGameId st2.activeGames),
            activeGameMeta := alistUpsert a.newGameId
              { gameId := a.newGameId, createdAtMs := a.now,
                whiteName := white.name, blackName := black.name,
                whiteAgentId := none, blackAgentId := none,
                status := GameStatus.active, moveCount := 0 } st2.activeGameMeta },
         some ⟨a.newGameId, white.agentId, black.agentId, white.name, black.name⟩)
      | none, ob =>
        let st1 := { st0 with
            waiting := st0.waiting.drop 1,
            waitingSinceMs := alistDel qa st0.waitingSinceMs }
        match ob with
        | none =>
            ({ st1 with
                waiting := st1.waiting.filter (fun x => x != qb),
                waitingSinceMs := alistDel qb st1.waitingSinceMs }, none)
        | some _ => (st1, none)
      | some _, none =>
        ({ st0 with
            waiting := st0.waiting.filter (fun x => x != qb),
            waitingSinceMs := alistDel qb st0.waitingSinceMs }, none)
    else (st0, none)
  else (st0, none)

/-- `GET /api/queue/status` (src/api/src/index.ts): token resolution, the
opportunistic pairing block, then the caller's own matched/waiting/idle
answer with stale-mapping cleanup. -/
def statusStep (a : StatusArgs) (st0 : LobbyState) :
    LobbyState × LobbyResp × Option InitBody :=
  match List.lookup a.token st0.agents with
  | none => (st0, .errToken, none)
  | some rec =>
    let st4 := (statusPairing a st0).1
    let withGame : LobbyState × Option String :=
      match List.lookup rec.agentId st4.activeGames with
      | some gid =>
        match a.gstat gid with
        | some s =>
            if s ≠ GameStatus.active then
              ({ st4 with activeGames := alistDel rec.agentId st4.activeGames }, none)
            else (st4, some gid)
        | none => (st4, some gid)
      | none => (st4, none)
    let resp :=
      match withGame.2 with
      | some g => LobbyResp.matchedResp g
      | none =>
        if rec.agentId ∈ withGame.1.waiting then LobbyResp.waitingResp
        else LobbyResp.idleResp
    (withGame.1, resp, (statusPairing a st0).2)

/-- One operation against the lobby actor, carrying its environment
responses. -/
inductive LobbyOp
  | register (a : RegisterArgs)
  | join (a : JoinArgs)
  | status (a : StatusArgs)

/-- One serialized step of the lobby actor, exposing the GameDO init call it
emits (the creation of a GameSession). -/
def lobbyStep (st : LobbyState) (op : LobbyOp) : LobbyState × Option InitBody :=
  match op with
  | .register a => ((registerAgent a st).1, none)
  | .join a => ((joinStep a st).1, (joinStep a st).2.2)
  | .status a => ((statusStep a st).1, (statusStep a st).2.2)

/-- Run a sequence of lobby operations, collecting every created game. -/
def lobbyRun (st : LobbyState) : List LobbyOp → LobbyState × List InitBody
  | [] => (st, [])
  | op :: ops =>
      ((lobbyRun (lobbyStep st op).1 ops).1,
       (match (lobbyStep st op).2 with | some ic => [ic] | none => []) ++
         (lobbyRun (lobbyStep st op).1 ops).2)

/-! ### Lookup lemmas for the association-list operations -/

theorem lookup_map_upsert_ne (k k2 : String) (v : β) (l : List (String × β))
    (h : k ≠ k2) :
    List.lookup k (l.map (fun e => if e.1 == k2 then (k2, v) else e)) =
      List.lookup k l := by
  induction l with
  | nil => rfl
  | cons a t ih =>
      simp only [List.map_cons]
      by_cases ha : (a.1 == k2) = true
      · rw [if_pos ha]
        have h1 : (k == k2) = false := by simpa using h
        have ha2 : a.1 = k2 := by simpa using ha
        have h2 : (k == a.1) = false := by simp [ha2]; simpa using h
        simp only [List.lookup, h1, h2]
        exact ih
      · rw [if_neg ha]
        simp only [List.lookup]
        cases hk : k == a.1 with
        | true => rfl
        | false => exact ih

theorem lookup_append_single_ne (k k2 : String) (v : β) (l : List (String × β))
    (h : k ≠ k2) :
    List.lookup k (l ++ [(k2, v)]) = List.lookup k l := by
  induction l with
  | nil =>
      have h1 : (k == k2) = false := by simpa using h
      simp [List.lookup, h1]
  | cons a t ih =>
      simp only [List.cons_append, List.lookup]
      cases hk : k == a.1 with
      | true => rfl
      | false => exact ih

theorem lookup_alistUpsert_ne (k k2 : String) (v : β) (l : List (String × β))
    (h : k ≠ k2) : List.lookup k (alistUpsert k2 v l) = List.lookup k l := by
  unfold alistUpsert
  split
  · exact lookup_map_upsert_ne k k2 v l h
  · exact lookup_append_single_ne k k2 v l h

/-- Full characterisation of lookup after upsert. -/
theorem lookup_alistUpsert (k k2 : String) (v : β) (l : List (String × β)) :
    List.lookup k (alistUpsert k2 v l) =
      if k = k2 then some v else List.lookup k l := by
  by_cases h : k = k2
  · subst h
    simp [alistUpsert_lookup]
  · simp [h, lookup_alistUpsert_ne k k2 v l h]

/-- Full characterisation of lookup after delete. -/
theorem lookup_alistDel (k k2 : String) (l : List (String × β)) :
    List.lookup k (alistDel k2 l) = if k = k2 then none else List.lookup k l := by
  induction l with
  | nil => simp [alistDel, List.lookup]
  | cons a t ih =>
      unfold alistDel at ih ⊢
      by_cases hak : a.1 = k2
      · have hf : (a.1 != k2) = false := by simp [hak]
        simp only [List.filter_cons, hf, Bool.false_eq_true, if_false]
        rw [ih]
        by_cases hk : k = k2
        · simp [hk]
        · have h2 : (k == a.1) = false := by
            simp only [hak, beq_eq_false_iff_ne, ne_eq]
            exact hk
          simp [hk, List.lookup, h2]
      · have hf : (a.1 != k2) = true := by simp [hak]
        simp only [List.filter_cons, hf, if_true]
        simp only [List.lookup]
        cases hk : k == a.1 with
        | true =>
            have hka : k = a.1 := by simpa using hk
            have : ¬k = k2 := by rw [hka]; exact hak
            simp [this]
        | false => rw [ih]

/-- Spec of `List.findIdx?`: the found index is in range and its element
satisfies the predicate. -/
theorem findIdxQ_getD (p : α → Bool) (l : List α) (i : Nat) (hd : α)
    (h : l.findIdx? p = some i) : i < l.length ∧ p (l.getD i hd) = true := by
  obtain ⟨hlt, hfi⟩ := List.findIdx?_eq_some_iff_findIdx_eq.mp h
  refine ⟨hlt, ?_⟩
  have hw : l.findIdx p < l.length := by rw [hfi]; exact hlt
  have h3 : p (l[l.findIdx p]) = true := @List.findIdx_getElem _ p l hw
  rw [List.getD_eq_getElem l hd hlt]
  simpa [hfi] using h3

/-- The partner index is always in range of a nonempty queue. -/
theorem pickPartnerIdx_lt (byId : List (String × AgentInfo)) (rec : AgentRec)
    (waiting : List String) (h : waiting ≠ []) :
    pickPartnerIdx byId rec waiting < waiting.length := by
  unfold pickPartnerIdx
  cases hf : waiting.findIdx? (fun cid =>
      (cid != "") && (cid != rec.agentId) &&
      (match List.lookup cid byId with
       | none => false
       | some cand => normName cand.name != normName rec.name)) with
  | none =>
      cases waiting with
      | nil => exact absurd rfl h
      | cons x xs => simp
  | some i => exact (findIdxQ_getD _ _ _ "" hf).1

/-- The selected partner is never the joiner, as long as the joiner is not
itself in the queue (which the idempotent re-join guard ensures). -/
theorem pickPartner_ne (byId : List (String × AgentInfo)) (rec : AgentRec)
    (waiting : List String) (h : waiting ≠ [])
    (hnot : rec.agentId ∉ waiting) :
    waiting.getD (pickPartnerIdx byId rec waiting) "" ≠ rec.agentId := by
  unfold pickPartnerIdx
  cases hf : waiting.findIdx? (fun cid =>
      (cid != "") && (cid != rec.agentId) &&
      (match List.lookup cid byId with
       | none => false
       | some cand => normName cand.name != normName rec.name)) with
  | none =>
      cases waiting with
      | nil => exact absurd rfl h
      | cons x xs =>
          simp only [List.getD]
          intro hc
          apply hnot
          simp_all
  | some i =>
      obtain ⟨hlt, hp⟩ := findIdxQ_getD _ _ _ "" hf
      simp only [Bool.and_eq_true, bne_iff_ne, ne_eq] at hp
      exact hp.1.2

/-! ### Reachability invariant of the lobby and the no-self-pairing proof -/

/-- Key coherence of `agentById`: the stored record's `agentId` equals its
key (`registerAgent` and the `agentLookup` touch both write it that way). -/
def WFbyId (l : List (String × AgentInfo)) : Prop :=
  ∀ k v, List.lookup k l = some v → v.agentId = k

/-- The invariant maintained by every reachable lobby state: coherent
`agentById`, and at most one agent waiting (every join either pairs
immediately or enqueues into an empty queue, and every other operation
only shrinks the queue). -/
def LobbyInv (st : LobbyState) : Prop :=
  WFbyId st.agentById ∧ st.waiting.length ≤ 1

theorem WFbyId_upsert (l : List (String × AgentInfo)) (k : String)
    (v : AgentInfo) (hv : v.agentId = k) (h : WFbyId l) :
    WFbyId (alistUpsert k v l) := by
  intro k2 v2 h2
  rw [lookup_alistUpsert] at h2
  by_cases hk : k2 = k
  · rw [if_pos hk] at h2
    cases h2
    rw [hv]
    exact hk.symm
  · rw [if_neg hk] at h2
    exact h k2 v2 h2

/-- `joinCore` never writes `agentById`. -/
theorem joinCore_agentById (a : JoinArgs) (rec : AgentRec) (st1 : LobbyState) :
    (joinCore a rec st1).1.agentById = st1.agentById := by
  simp only [joinCore]
  repeat' split
  all_goals rfl

/-- `joinStep` never writes `agentById`. -/
theorem joinStep_agentById (a : JoinArgs) (st0 : LobbyState) :
    (joinStep a st0).1.agentById = st0.agentById := by
  simp only [joinStep]
  repeat' split
  all_goals simp [joinCore_agentById]

/-- The queue after `joinCore` stays within the one-entry bound. -/
theorem joinCore_waiting_le (a : JoinArgs) (rec : AgentRec) (st1 : LobbyState)
    (h : st1.waiting.length ≤ 1) :
    (joinCore a rec st1).1.waiting.length ≤ 1 := by
  have hflt : (joinFiltered a.now st1).length ≤ 1 :=
    le_trans (List.length_filter_le _ _) h
  simp only [joinCore]
  split
  · simpa using hflt
  · split
    · rename_i hemp
      have hnil : joinFiltered a.now st1 = [] := by simpa using hemp
      simp [hnil]
    · rename_i hmem hemp
      have hne : joinFiltered a.now st1 ≠ [] := by simpa using hemp
      have hlt := pickPartnerIdx_lt st1.agentById rec (joinFiltered a.now st1) hne
      have herase := List.length_eraseIdx_add_one hlt
      split
      · simp only [List.length_append, List.length_singleton]
        simp only [List.length_append, List.length_singleton] at herase ⊢
        omega
      · simp
        omega

/-- Any game emitted by `joinCore` pairs two distinct agent ids, given a
coherent `agentById`. -/
theorem joinCore_init_ne (a : JoinArgs) (rec : AgentRec) (st1 : LobbyState)
    (hwf : WFbyId st1.agentById) (ic : InitBody)
    (h : (joinCore a rec st1).2.2 = some ic) :
    ic.whiteAgentId ≠ ic.blackAgentId := by
  simp only [joinCore] at h
  split at h
  · simp at h
  · split at h
    · simp at h
    · rename_i hmem hemp
      split at h
      · simp at h
      · rename_i otherRec hlook
        simp only [Option.some.injEq] at h
        subst h
        have hne : joinFiltered a.now st1 ≠ [] := by simpa using hemp
        have hnm : rec.agentId ∉ joinFiltered a.now st1 := by simpa using hmem
        have hother := pickPartner_ne st1.agentById rec (joinFiltered a.now st1) hne hnm
        have hoid : otherRec.agentId =
            (joinFiltered a.now st1).getD
              (pickPartnerIdx st1.agentById rec (joinFiltered a.now st1)) "" :=
          hwf _ _ hlook
        by_cases hwFirst : a.whiteFirst = true
        · simp only [hwFirst, if_true]
          intro hc
          exact hother (by rw [← hoid, ← hc])
        · have hwf2 : a.whiteFirst = false := by
            cases hw : a.whiteFirst
            · rfl
            · exact absurd hw hwFirst
          simp only [hwf2, Bool.false_eq_true, if_false]
          intro hc
          exact hother (by rw [← hoid, hc])

/-- Any game emitted by `joinStep` pairs two distinct agent ids. -/
theorem joinStep_init_ne (a : JoinArgs) (st0 : LobbyState)
    (hwf : WFbyId st0.agentById) (ic : InitBody)
    (h : (joinStep a st0).2.2 = some ic) :
    ic.whiteAgentId ≠ ic.blackAgentId := by
  simp only [joinStep] at h
  split at h
  · simp at h
  · split at h
    · simp at h
    · split at h
      · simp at h
      · rename_i rec hrec
        split at h
        · split at h
          · refine joinCore_init_ne a rec _ ?_ ic h
            exact hwf
          · split at h
            · simp at h
            · refine joinCore_init_ne a rec _ ?_ ic h
              exact hwf
        · refine joinCore_init_ne a rec _ ?_ ic h
          exact hwf

/-- With at most one agent waiting (every reachable state), the status
handler's opportunistic pairing never fires: it touches neither the queue
nor the registry and creates no game. -/
theorem statusStep_small (a : StatusArgs) (st0 : LobbyState)
    (h : st0.waiting.length ≤ 1) :
    (statusStep a st0).1.agentById = st0.agentById ∧
    (statusStep a st0).1.waiting = st0.waiting ∧
    (statusStep a st0).2.2 = none := by
  have h2 : ¬(2 ≤ st0.waiting.length) := by omega
  have hp : statusPairing a st0 = (st0, none) := by
    unfold statusPairing
    rw [if_neg h2]
  simp only [statusStep, hp]
  split
  · exact ⟨rfl, rfl, rfl⟩
  · repeat' split
    all_goals exact ⟨rfl, rfl, rfl⟩

/-- The queue after `joinStep` stays within the one-entry bound. -/
theorem joinStep_waiting_le (a : JoinArgs) (st0 : LobbyState)
    (h : st0.waiting.length ≤ 1) :
    (joinStep a st0).1.waiting.length ≤ 1 := by
  simp only [joinStep]
  split
  · exact h
  · split
    · exact h
    · split
      · exact h
      · rename_i rec hrec
        split
        · split
          · exact joinCore_waiting_le a rec _ h
          · split
            · exact h
            · exact joinCore_waiting_le a rec _ h
        · exact joinCore_waiting_le a rec _ h

/-- `registerAgent` preserves the lobby invariant. -/
theorem registerAgent_inv (a : RegisterArgs) (st : LobbyState)
    (h : LobbyInv st) : LobbyInv (registerAgent a st).1 := by
  obtain ⟨hwf, hlen⟩ := h
  simp only [registerAgent]
  split
  · exact ⟨hwf, hlen⟩
  · exact ⟨WFbyId_upsert _ _ _ rfl hwf, hlen⟩

/-- Every lobby operation preserves the invariant. -/
theorem lobbyStep_inv (st : LobbyState) (op : LobbyOp) (h : LobbyInv st) :
    LobbyInv (lobbyStep st op).1 := by
  obtain ⟨hwf, hlen⟩ := h
  cases op with
  | register a => exact registerAgent_inv a st ⟨hwf, hlen⟩
  | join a =>
      constructor
      · show WFbyId (joinStep a st).1.agentById
        rw [joinStep_agentById]
        exact hwf
      · exact joinStep_waiting_le a st hlen
  | status a =>
      have hs := statusStep_small a st hlen
      constructor
      · show WFbyId (statusStep a st).1.agentById
        rw [hs.1]
        exact hwf
      · show (statusStep a st).1.waiting.length ≤ 1
        rw [hs.2.1]
        exact hlen

/-- On an invariant state, any game a lobby step creates pairs two distinct
agents. -/
theorem lobbyStep_init_ne (st : LobbyState) (op : LobbyOp) (ic : InitBody)
    (h : LobbyInv st) (he : (lobbyStep st op).2 = some ic) :
    ic.whiteAgentId ≠ ic.blackAgentId := by
  cases op with
  | register a => simp [lobbyStep] at he
  | join a => exact joinStep_init_ne a st h.1 ic he
  | status a =>
      have hn := (statusStep_small a st h.2).2.2
      rw [show (lobbyStep st (LobbyOp.status a)).2 = (statusStep a st).2.2 from rfl, hn] at he
      cases he

theorem emptyLobby_inv : LobbyInv emptyLobby := by
  constructor
  · intro k v h
    simp [emptyLobby, List.lookup] at h
  · simp [emptyLobby]

/-- From any invariant state, no game a run of lobby operations creates ever
pairs an agent with itself. -/
theorem lobbyRun_init_ne (ops : List LobbyOp) : ∀ st : LobbyState, LobbyInv st →
    ∀ ic ∈ (lobbyRun st ops).2, ic.whiteAgentId ≠ ic.blackAgentId := by
  induction ops with
  | nil =>
      intro st h ic hm
      simp [lobbyRun] at hm
  | cons op ops ih =>
      intro st h ic hm
      simp only [lobbyRun, List.mem_append] at hm
      rcases hm with hm | hm
      · cases hop : (lobbyStep st op).2 with
        | none =>
            rw [hop] at hm
            simp at hm
        | some ic2 =>
            rw [hop] at hm
            simp at hm
            subst hm
            exact lobbyStep_init_ne st op ic h hop
      · exact ih (lobbyStep st op).1 (lobbyStep_inv st op h) ic hm

/-- If the partner selected by join does not resolve in `agentById`, the
join pairs nobody: the dead entry is removed from the queue and the joiner
is simply re-enqueued behind it. -/
theorem joinCore_drop (a : JoinArgs) (rec : AgentRec) (st1 : LobbyState)
    (hmem : rec.agentId ∉ joinFiltered a.now st1)
    (hne : joinFiltered a.now st1 ≠ [])
    (hlook : List.lookup ((joinFiltered a.now st1).getD
        (pickPartnerIdx st1.agentById rec (joinFiltered a.now st1)) "")
        st1.agentById = none) :
    (joinCore a rec st1).2.2 = none ∧
    (joinCore a rec st1).2.1 = LobbyResp.waitingResp ∧
    (joinCore a rec st1).1.waiting =
      ((joinFiltered a.now st1).eraseIdx
        (pickPartnerIdx st1.agentById rec (joinFiltered a.now st1))) ++ [rec.agentId] := by
  simp only [joinCore]
  rw [if_neg hmem, if_neg (by simp only [List.isEmpty_iff]; exact hne)]
  rw [hlook]
  exact ⟨rfl, rfl, rfl⟩

/-- If the earliest waiting entry does not resolve in `agentById`, the
status path pairs nobody and drops the dead entries from the queue. -/
theorem statusPairing_drop (a : StatusArgs) (st0 : LobbyState)
    (hlen : 2 ≤ st0.waiting.length)
    (hqa : st0.waiting.getD 0 "" ≠ "")
    (hqb : st0.waiting.getD 1 "" ≠ "")
    (hab : st0.waiting.getD 0 "" ≠ st0.waiting.getD 1 "")
    (hla : List.lookup (st0.waiting.getD 0 "") st0.agentById = none) :
    (statusPairing a st0).2 = none ∧
    (statusPairing a st0).1.waiting =
      (if List.lookup (st0.waiting.getD 1 "") st0.agentById = none
       then (st0.waiting.drop 1).filter (fun x => x != st0.waiting.getD 1 "")
       else st0.waiting.drop 1) := by
  unfold statusPairing
  rw [if_pos hlen, if_pos ⟨hqa, hqb, hab⟩, hla]
  rcases ho : List.lookup (st0.waiting.getD 1 "") st0.agentById with _ | br
  · rw [if_pos rfl]
    exact ⟨rfl, rfl⟩
  · rw [if_neg (by simp)]
    exact ⟨rfl, rfl⟩

/-- On a resolvable caller token, the status response's final section only
rewrites `activeGames`: the new queue and the emitted init call are those of
the pairing block. -/
theorem statusStep_of_pairing (a : StatusArgs) (st0 : LobbyState)
    (rec : AgentRec) (hrec : List.lookup a.token st0.agents = some rec) :
    (statusStep a st0).2.2 = (statusPairing a st0).2 ∧
    (statusStep a st0).1.waiting = (statusPairing a st0).1.waiting := by
  simp only [statusStep, hrec]
  refine ⟨by trivial, ?_⟩
  repeat' split
  all_goals rfl


/-! ## Claim C7 — the queue never pairs an agent with itself -/

/-- C7: (1) starting from the fresh lobby, no sequence of register / join /
status operations ever creates a GameSession with `whiteAgentId` equal to
`blackAgentId` — every reachable state keeps `agentById` key-coherent and at
most one agent waiting, so the status path's opportunistic pairing (and the
aliasing corruption inside its same-name swap) never fires and join never
selects the joiner itself; (2) a join whose selected partner no longer
resolves drops that entry and re-enqueues the joiner instead of pairing;
(3) a status call whose earliest waiting entry no longer resolves drops the
dead entries and pairs nobody. -/
theorem claim_C7_no_self_pairing :
    (∀ (ops : List LobbyOp) (ic : InitBody), ic ∈ (lobbyRun emptyLobby ops).2 →
      ic.whiteAgentId ≠ ic.blackAgentId) ∧
    (∀ (a : JoinArgs) (rec : AgentRec) (st1 : LobbyState),
      rec.agentId ∉ joinFiltered a.now st1 →
      joinFiltered a.now st1 ≠ [] →
      List.lookup ((joinFiltered a.now st1).getD
          (pickPartnerIdx st1.agentById rec (joinFiltered a.now st1)) "")
        st1.agentById = none →
      (joinCore a rec st1).2.2 = none ∧
      (joinCore a rec st1).2.1 = LobbyResp.waitingResp ∧
      (joinCore a rec st1).1.waiting =
        ((joinFiltered a.now st1).eraseIdx
          (pickPartnerIdx st1.agentById rec (joinFiltered a.now st1))) ++ [rec.agentId]) ∧
    (∀ (a : StatusArgs) (st0 : LobbyState),
      2 ≤ st0.waiting.length →
      st0.waiting.getD 0 "" ≠ "" →
      st0.waiting.getD 1 "" ≠ "" →
      st0.waiting.getD 0 "" ≠ st0.waiting.getD 1 "" →
      List.lookup (st0.waiting.getD 0 "") st0.agentById = none →
      (statusPairing a st0).2 = none ∧
      (statusPairing a st0).1.waiting =
        (if List.lookup (st0.waiting.getD 1 "") st0.agentById = none
         then (st0.waiting.drop 1).filter (fun x => x != st0.waiting.getD 1 "")
         else st0.waiting.drop 1)) :=
  ⟨fun ops ic hm => lobbyRun_init_ne ops emptyLobby emptyLobby_inv ic hm,
   joinCore_drop, statusPairing_drop⟩

/-- Concrete run for the C7 witness: two agents with different names
register, one joins and waits, the second joins and is paired. -/
def c7NoGame : String → Option GameStatus := fun _ => none

def c7Ops : List LobbyOp :=
  [LobbyOp.register ⟨"X", "n", "tx", 1000⟩,
   LobbyOp.register ⟨"Z", "m", "tz", 1000⟩,
   LobbyOp.join ⟨true, "tx", "3+2", 2000, c7NoGame, true, "g1"⟩,
   LobbyOp.join ⟨true, "tz", "3+2", 2100, c7NoGame, true, "g1"⟩]

def c7Init : InitBody := ⟨"g1", "Z", "X", "m", "n"⟩

/-- A join whose partner entry is a ghost id with no `agentById` record. -/
def c7GhostState : LobbyState :=
  { agents := [("ta", ⟨"A", "n", "ta", 900⟩)], agentById := [],
    waiting := ["ghost"], waitingSinceMs := [("ghost", 950)],
    activeGames := [], activeGameMeta := [] }

def c7JoinArgs : JoinArgs := ⟨true, "ta", "3+2", 1000, c7NoGame, true, "g9"⟩

def c7ARec : AgentRec := ⟨"A", "n", "ta", 900⟩

/-- A status call whose two earliest waiting entries are unresolvable. -/
def c7GhostState2 : LobbyState :=
  { agents := [("ta", ⟨"A", "n", "ta", 900⟩)], agentById := [],
    waiting := ["gh1", "gh2"], waitingSinceMs := [],
    activeGames := [], activeGameMeta := [] }

def c7StatusArgs : StatusArgs := ⟨"ta", 1000, c7NoGame, true, "g9"⟩

/-- Witness for C7 at concrete inputs: the paired run creates exactly the
game Z (white) vs X (black), two distinct agents; the ghost join drops the
ghost and re-enqueues the joiner; the ghost status pairs nobody and clears
the dead queue. -/
theorem claim_C7_witness :
    (c7Init ∈ (lobbyRun emptyLobby c7Ops).2 ∧
      c7Init.whiteAgentId ≠ c7Init.blackAgentId) ∧
    ((joinCore c7JoinArgs c7ARec c7GhostState).2.2 = none ∧
      (joinCore c7JoinArgs c7ARec c7GhostState).2.1 = LobbyResp.waitingResp ∧
      (joinCore c7JoinArgs c7ARec c7GhostState).1.waiting =
        ((joinFiltered c7JoinArgs.now c7GhostState).eraseIdx
          (pickPartnerIdx c7GhostState.agentById c7ARec
            (joinFiltered c7JoinArgs.now c7GhostState))) ++ [c7ARec.agentId]) ∧
    ((statusPairing c7StatusArgs c7GhostState2).2 = none ∧
      (statusPairing c7StatusArgs c7GhostState2).1.waiting =
        (if List.lookup (c7GhostState2.waiting.getD 1 "") c7GhostState2.agentById = none
         then (c7GhostState2.waiting.drop 1).filter
            (fun x => x != c7GhostState2.waiting.getD 1 "")
         else c7GhostState2.waiting.drop 1)) :=
  ⟨⟨by decide, claim_C7_no_self_pairing.1 c7Ops c7Init (by decide)⟩,
   claim_C7_no_self_pairing.2.1 c7JoinArgs c7ARec c7GhostState
     (by decide) (by decide) (by decide),
   claim_C7_no_self_pairing.2.2 c7StatusArgs c7GhostState2
     (by decide) (by decide) (by decide) (by decide) (by decide)⟩
